import Mathlib

/-!
# async-tgbot-cpp: filtered inboxes, coroutine state machine, sessions and routers

A shallow embedding of the C++ sources under `include/atgbot` and `src/tools`.

* Containers (`std::queue`, `std::vector`) are lists, the front being the head.
* An empty `std::function` is `none`; a set one is `some f` with `f` pure.
* Mutexes are left out: every member function is modelled as one atomic step,
  which is what the recursive locks of the source provide.
* Member functions that mutate `*this` return the new object.
-/

namespace ATgBot

/-! ## `tools/eventfilter.hpp` -/

/-- The class template `EventFilter<T>`: an enabled flag and an optional
additional predicate (`std::function<bool(T)>`, possibly empty). -/
structure EventFilter (T : Type) where
  m_enabled : Bool := false
  m_additional_filter : Option (T → Bool) := none

instance (T : Type) : Inhabited (EventFilter T) := ⟨{}⟩

/-- The member `EventFilter::check`. -/
def EventFilter.check {T : Type} (f : EventFilter T) (elem : T) : Bool :=
  if !f.m_enabled then false
  else
    match f.m_additional_filter with
    | some p => p elem
    | none => true

/-- The member `EventFilter::setAdditionalFilter`; the argument may be an empty function. -/
def EventFilter.setAdditionalFilter {T : Type} (f : EventFilter T) (p : Option (T → Bool)) :
    EventFilter T :=
  { f with m_additional_filter := p }

/-- The member `EventFilter::setEnabled`. -/
def EventFilter.setEnabled {T : Type} (f : EventFilter T) (v : Bool) : EventFilter T :=
  { f with m_enabled := v }

/-! ## `tools/timerevent.hpp` (data only) -/

/-- The class `TimerEvent`: the clock reading taken when the event was built,
as a tick count since the epoch. -/
structure TimerEvent where
  time_point : Int
  deriving DecidableEq, Repr

/-- The specialisation `EventFilter<TimerEvent>`: an enabled flag and a deadline;
a deadline whose tick count is `0` (the value-initialised one) means "no deadline". -/
structure TimerFilter where
  m_enabled : Bool := false
  m_time_point : Int := 0
  deriving DecidableEq, Repr

instance : Inhabited TimerFilter := ⟨{}⟩

/-! ## `tools/eventqueue.hpp` -/

/-- The class template `EventQueue<T>`. `F` is the filter class `EventFilter<T>` resolves to:
`EventFilter T` for the primary template, `TimerFilter` for `T = TimerEvent`. -/
structure EventQueue (F T : Type) where
  m_filter : F
  m_has_changes : Bool := true
  m_queue : List T := []

instance (F T : Type) [Inhabited F] : Inhabited (EventQueue F T) := ⟨{ m_filter := default }⟩

/-- The loop of `EventQueue::clear`: pop the front while the queue is not empty. -/
def EventQueue.clearLoop {T : Type} : List T → List T
  | [] => []
  | _ :: rest => EventQueue.clearLoop rest

/-- The member `EventQueue::clear`. -/
def EventQueue.clear {F T : Type} (q : EventQueue F T) : EventQueue F T :=
  { q with m_queue := EventQueue.clearLoop q.m_queue }

/-- The member `EventQueue::setFilter`: raise the flag, clear, then store the filter. -/
def EventQueue.setFilter {F T : Type} (q : EventQueue F T) (filter : F) : EventQueue F T :=
  let q1 := { q with m_has_changes := true }
  let q2 := q1.clear
  { q2 with m_filter := filter }

/-- The member `EventQueue::getFilter`. -/
def EventQueue.getFilter {F T : Type} (q : EventQueue F T) : F := q.m_filter

/-- The member `EventQueue::empty`. -/
def EventQueue.empty {F T : Type} (q : EventQueue F T) : Bool := q.m_queue.isEmpty

/-- The member `EventQueue::push`. `check` is the member `check` of the filter class `F`
(`EventFilter.check` for the primary template). -/
def EventQueue.push {F T : Type} (check : F → T → Bool) (q : EventQueue F T) (element : T) :
    EventQueue F T :=
  if check q.m_filter element then { q with m_queue := q.m_queue ++ [element] } else q

/-- The member `EventQueue::pop`: the returned optional and the queue afterwards. -/
def EventQueue.pop {F T : Type} (q : EventQueue F T) : Option T × EventQueue F T :=
  match q.m_queue with
  | [] => (none, q)
  | elem :: rest => (some elem, { q with m_queue := rest })

/-- The member `EventQueue::resetChanges`. -/
def EventQueue.resetChanges {F T : Type} (q : EventQueue F T) : EventQueue F T :=
  { q with m_has_changes := false }

/-- The member `EventQueue::hasChanges`. -/
def EventQueue.hasChanges {F T : Type} (q : EventQueue F T) : Bool := q.m_has_changes

/-- One call of a state-changing member of `EventQueue`, for talking about call sequences. -/
inductive QueueCall (F T : Type) where
  | setFilter (filter : F)
  | clear
  | push (element : T)
  | pop
  | resetChanges

/-- The queue after one call. -/
def EventQueue.call {F T : Type} (check : F → T → Bool) (q : EventQueue F T) :
    QueueCall F T → EventQueue F T
  | .setFilter filter => q.setFilter filter
  | .clear => q.clear
  | .push element => q.push check element
  | .pop => q.pop.2
  | .resetChanges => q.resetChanges

/-- The queue after a sequence of calls, made in list order. -/
def EventQueue.calls {F T : Type} (check : F → T → Bool) (q : EventQueue F T)
    (cs : List (QueueCall F T)) : EventQueue F T :=
  cs.foldl (EventQueue.call check) q

/-- Push the events of a list in order. -/
def EventQueue.pushAll {F T : Type} (check : F → T → Bool) (q : EventQueue F T) (es : List T) :
    EventQueue F T :=
  es.foldl (EventQueue.push check) q

/-- Call `pop` `n` times; the returned optionals in call order, and the queue afterwards. -/
def EventQueue.popN {F T : Type} : Nat → EventQueue F T → List (Option T) × EventQueue F T
  | 0, q => ([], q)
  | n + 1, q =>
    let r := q.pop
    let rest := EventQueue.popN n r.2
    (r.1 :: rest.1, rest.2)

/-! ## `coroutine.hpp`: the promise -/

/-- The enumeration `promise_type::State`. -/
inductive State where
  | kNull
  | kReady
  | kDone
  | kException
  | kWait
  deriving DecidableEq, Repr

/-- An exception object (what `std::exception_ptr` points to), identified by its message. -/
structure Exception where
  what : String
  deriving DecidableEq, Repr

/-- The members of `Coroutine::promise_type`. The two conditions are `std::function<bool()>`
closures over the session; `ε` is what they read when called. `m_state` has no initialiser in
the source; `initial_suspend` assigns it before anything reads it. -/
structure promise_type (ε : Type) where
  m_condition : Option (ε → Bool) := none
  m_abort_condition : Option (ε → Bool) := none
  m_exception : Option Exception := none
  m_state : State := State.kNull

/-- The member `promise_type::initial_suspend`. -/
def promise_type.initial_suspend {ε : Type} (p : promise_type ε) : promise_type ε :=
  { p with m_state := State.kReady }

/-- The member `promise_type::final_suspend`. -/
def promise_type.final_suspend {ε : Type} (p : promise_type ε) : promise_type ε :=
  if p.m_state ≠ State.kException then { p with m_state := State.kDone } else p

/-- The member `promise_type::unhandled_exception`. -/
def promise_type.unhandled_exception {ε : Type} (p : promise_type ε) (e : Exception) :
    promise_type ε :=
  { p with m_state := State.kException, m_exception := some e }

/-- The one-argument overload of `promise_type::pause`. -/
def promise_type.pause {ε : Type} (p : promise_type ε) (start_condition : Option (ε → Bool)) :
    promise_type ε :=
  { p with m_condition := start_condition, m_state := State.kWait }

/-- The two-argument overload of `promise_type::pause`. -/
def promise_type.pause2 {ε : Type} (p : promise_type ε) (start_condition : Option (ε → Bool))
    (abort_condition : Option (ε → Bool)) : promise_type ε :=
  { p with m_condition := start_condition, m_abort_condition := abort_condition,
           m_state := State.kWait }

/-- The message of the `std::runtime_error` thrown by `updateState`. -/
def sleepsWithoutCondition : Exception := { what := "a coro sleeps but m_condition is zero" }

/-- The C++ test `f && f()` on a `std::function<bool()>`: set, and true when called. -/
def fires {ε : Type} (f : Option (ε → Bool)) (env : ε) : Bool :=
  match f with
  | some g => g env
  | none => false

/-- The member `promise_type::updateState`, the conditions being called on `env`;
`Except.error` is the thrown `std::runtime_error`. -/
def promise_type.updateState {ε : Type} (env : ε) (p : promise_type ε) :
    Except Exception (promise_type ε) :=
  if p.m_state = State.kWait then
    if p.m_condition.isNone then Except.error sleepsWithoutCondition
    else
      let p1 := if fires p.m_condition env then { p with m_state := State.kReady } else p
      let p2 := if fires p1.m_abort_condition env then { p1 with m_state := State.kDone } else p1
      Except.ok p2
  else Except.ok p

/-- The member `promise_type::getState`: refresh, then read the state. -/
def promise_type.getState {ε : Type} (env : ε) (p : promise_type ε) :
    Except Exception (State × promise_type ε) :=
  match p.updateState env with
  | Except.error e => Except.error e
  | Except.ok p1 => Except.ok (p1.m_state, p1)

/-! ## Event payloads -/

/-- Modelled from the spec: the platform type `TgBot::Message` is not part of this
repository ("the core is generic over" the platform data types); only the fields the
sources read are kept. -/
structure Message where
  from_id : Int
  chat_id : Int
  text : String
  deriving DecidableEq, Repr

/-- Modelled from the spec: the platform type `TgBot::CallbackQuery`, likewise reduced to the
fields the sources read. -/
structure CallbackQuery where
  data : String
  message_id : Int
  deriving DecidableEq, Repr

/-- The shared pointer `TgBot::Message::Ptr`; `none` is `nullptr`. -/
abbrev MessagePtr := Option Message

/-- The shared pointer `TgBot::CallbackQuery::Ptr`; `none` is `nullptr`. -/
abbrev CallbackQueryPtr := Option CallbackQuery

/-! ## `tools/session.hpp`: the inboxes -/

/-- The three public queue members of `Session`. -/
structure Inboxes where
  message_queue : EventQueue (EventFilter MessagePtr) MessagePtr := default
  callback_queue : EventQueue (EventFilter CallbackQueryPtr) CallbackQueryPtr := default
  timer_queue : EventQueue TimerFilter TimerEvent := default

/-- What code running inside a coroutine reaches through its handle: the promise, and through
`promise().m_session` the queues of the owning session. The conditions stored in the promise
are closures over the session pointer that read its queues. -/
structure Context extends Inboxes where
  promise : promise_type Inboxes

/-! ## Awaitables and coroutine bodies -/

/-- An awaitable class with result type `ρ`, given by its three members.
`await_resume` takes whether `m_handle` has been set by an earlier `await_suspend` on the same
object. `none` stands for an execution with no defined continuation: `std::terminate` after an
exception left a `noexcept` member, or undefined behaviour. -/
structure Awaitable (ρ : Type) where
  await_ready : Context → Bool
  await_suspend : Context → Context
  await_resume : Bool → Context → Option (ρ × Context)

/-- The class `createCoro` of `awaitables/create.hpp`, as far as it acts on the awaiting
coroutine and its session: never ready, `await_suspend` changes nothing there (it calls
`m_session->pushCoro`, which `Body.pushed` records), `await_resume` is empty and does not use a
handle. -/
def createCoro.members : Awaitable Unit where
  await_ready := fun _ => false
  await_suspend := fun session => session
  await_resume := fun _ session => some ((), session)

/-- The body of a coroutine function returning `Coroutine`, by its suspension points:
`co_return` (or falling off the end), a thrown exception that the body does not catch,
or `co_await a` followed by the rest of the body, which receives the value of the await.
`co_await createCoro(F(..))` has a constructor of its own because the awaitable carries a
coroutine: `m_coro` is the body of the coroutine function `F` whose call made that coroutine
(`createCoro` is handed a coroutine fresh from its coroutine function).
A body can go round a `co_await`: `loop a _ again rest` is
`do { r = co_await a; } while (again(r));` followed by `rest`, for an awaitable whose
`await_ready` returns false whatever the state (as those of `message.hpp`,
`callbackquery.hpp`, `create.hpp` and `makeasync.hpp` do), so that every turn of the loop
suspends; and `co_await_createCoro_forever m_coro` is `for (;;) co_await createCoro(F(..));`,
which never ends. -/
inductive Body : Type 1 where
  | co_return : Body
  | throw (e : Exception) : Body
  | co_await {ρ : Type} (a : Awaitable ρ) (rest : ρ → Body) : Body
  | co_await_createCoro (m_coro : Body) (rest : Body) : Body
  | loop {ρ : Type} (a : Awaitable ρ) (never_ready : ∀ c, a.await_ready c = false)
      (again : ρ → Bool) (rest : Body) : Body
  | co_await_createCoro_forever (m_coro : Body) : Body

/-- Where a coroutine is suspended. -/
inductive Frame : Type 1 where
  | initial (body : Body) : Frame
  | awaiting {ρ : Type} (a : Awaitable ρ) (rest : ρ → Body) : Frame
  | final : Frame

/-- Run a body until the coroutine suspends next. `co_return` runs `return_void` and
`final_suspend`; an escaping exception runs `unhandled_exception` and then `final_suspend`;
`co_await a` calls `a.await_ready()`, and either goes on with `a.await_resume()` at once or
calls `a.await_suspend(handle)` and suspends. -/
def Body.run : Body → Context → Option (Frame × Context)
  | .co_return, c => some (Frame.final, { c with promise := c.promise.final_suspend })
  | .throw e, c =>
    some (Frame.final, { c with promise := (c.promise.unhandled_exception e).final_suspend })
  | .co_await a rest, c =>
    if a.await_ready c then
      match a.await_resume false c with
      | none => none
      | some (r, c1) => (rest r).run c1
    else some (Frame.awaiting a rest, a.await_suspend c)
  | .co_await_createCoro _ rest, c =>
    if createCoro.members.await_ready c then
      match createCoro.members.await_resume false c with
      | none => none
      | some (_, c1) => rest.run c1
    else some (Frame.awaiting createCoro.members (fun _ => rest), createCoro.members.await_suspend c)
  | .loop a never_ready again rest, c =>
    some (Frame.awaiting a (fun r => if again r then Body.loop a never_ready again rest else rest),
          a.await_suspend c)
  | .co_await_createCoro_forever m_coro, c =>
    some (Frame.awaiting createCoro.members (fun _ => Body.co_await_createCoro_forever m_coro),
          createCoro.members.await_suspend c)

/-- The bodies of the coroutines handed to `Session::pushCoro` while `Body.run` runs, in call
order: the calls `createCoro::await_suspend` makes. -/
def Body.pushed : Body → Context → List Body
  | .co_return, _ => []
  | .throw _, _ => []
  | .co_await a rest, c =>
    if a.await_ready c then
      match a.await_resume false c with
      | none => []
      | some (r, c1) => (rest r).pushed c1
    else []
  | .co_await_createCoro m_coro rest, c =>
    if createCoro.members.await_ready c then
      match createCoro.members.await_resume false c with
      | none => []
      | some (_, c1) => rest.pushed c1
    else [m_coro]
  | .loop _ _ _ _, _ => []
  | .co_await_createCoro_forever m_coro, _ => [m_coro]

/-- The call `handle.resume()` on a suspended coroutine. Resuming a coroutine suspended at its
final suspension point is undefined behaviour. -/
def Frame.resume : Frame → Context → Option (Frame × Context)
  | .initial body, c => body.run c
  | .awaiting a rest, c =>
    match a.await_resume true c with
    | none => none
    | some (r, c1) => (rest r).run c1
  | .final, _ => none

/-- The bodies of the coroutines handed to `Session::pushCoro` during `handle.resume()`. -/
def Frame.pushed : Frame → Context → List Body
  | .initial body, c => body.pushed c
  | .awaiting a rest, c =>
    match a.await_resume true c with
    | none => []
    | some (r, c1) => (rest r).pushed c1
  | .final, _ => []

/-! ## `coroutine.hpp`: the class `Coroutine` -/

/-- The coroutine state a non-null `handle_type` refers to. -/
structure Handle where
  promise : promise_type Inboxes
  frame : Frame

/-- The class `Coroutine`; `coro = none` is the null handle. -/
structure Coroutine where
  coro : Option Handle := none

/-- A call of a coroutine function with the given body: the promise is constructed,
`get_return_object` wraps the handle, and `initial_suspend` suspends it. -/
def Coroutine.start (body : Body) : Coroutine :=
  { coro := some { promise := ({} : promise_type Inboxes).initial_suspend,
                   frame := Frame.initial body } }

/-- What a call did: returned a value, threw, or had no defined continuation
(`std::terminate`, undefined behaviour); with the state it left. -/
inductive Outcome (α : Type) (σ : Type 1) : Type 1 where
  | returned (value : α) (after : σ) : Outcome α σ
  | threw (e : Exception) (after : σ) : Outcome α σ
  | aborted : Outcome α σ

/-- The member `Coroutine::getState`, inside the session whose queues are `env`. -/
def Coroutine.getState (env : Inboxes) (co : Coroutine) : Except Exception (State × Coroutine) :=
  match co.coro with
  | none => Except.ok (State.kNull, co)
  | some h =>
    match h.promise.getState env with
    | Except.error e => Except.error e
    | Except.ok (st, p) => Except.ok (st, { coro := some { h with promise := p } })

/-- The call `coro.resume()` made by `tryResume`. -/
def Coroutine.resume (env : Inboxes) (co : Coroutine) : Option (Inboxes × Coroutine) :=
  match co.coro with
  | none => none
  | some h =>
    match h.frame.resume { env with promise := h.promise } with
    | none => none
    | some (fr, c) => some (c.toInboxes, { coro := some { promise := c.promise, frame := fr } })

/-- The member `Coroutine::tryResume`, inside the session whose queues are `env`. -/
def Coroutine.tryResume (env : Inboxes) (co : Coroutine) : Outcome Bool (Inboxes × Coroutine) :=
  match co.getState env with
  | Except.error e => Outcome.threw e (env, co)
  | Except.ok (st, co1) =>
    match st with
    | State.kNull => Outcome.returned false (env, co1)
    | State.kDone => Outcome.returned false (env, co1)
    | State.kException => Outcome.returned false (env, co1)
    | State.kWait => Outcome.returned false (env, co1)
    | State.kReady =>
      match co1.resume env with
      | none => Outcome.aborted
      | some (env2, co2) =>
        match co2.getState env2 with
        | Except.error e => Outcome.threw e (env2, co2)
        | Except.ok (st2, co3) =>
          if st2 = State.kException then
            match co3.coro.bind (fun h => h.promise.m_exception) with
            | some e => Outcome.threw e (env2, co3)
            | none => Outcome.aborted
          else Outcome.returned true (env2, co3)

/-- The coroutines handed to `Session::pushCoro` during `Coroutine::tryResume`, in call order:
those of the one `coro.resume()` it makes when the refreshed state is `kReady`. -/
def Coroutine.pushCoroCalls (env : Inboxes) (co : Coroutine) : List Coroutine :=
  match co.getState env with
  | Except.ok (State.kReady, co1) =>
    match co1.coro with
    | none => []
    | some h => (h.frame.pushed { env with promise := h.promise }).map Coroutine.start
  | _ => []

/-! ## `tools/session.hpp`, `src/tools/session.cpp` -/

/-- The class `Session`: the queues and the coroutine. The two scheduler callbacks are not
stored; calls of them are recorded where they are made (see `Session.execute`). -/
structure Session extends Inboxes where
  coro : Coroutine

/-- The factory `Session::create`: fresh queues around the coroutine. The back-pointer
`m_session` it stores in the promise is implicit: a coroutine always runs on the queues of the
session that holds it. (The source stores it through `coro.coro.promise()`, which is undefined
on a null coroutine; here a session around the null coroutine is a session in `kNull`.) -/
def Session.create (coro : Coroutine) : Session :=
  { coro := coro }

/-- The member `Session::getStatus`. -/
def Session.getStatus (s : Session) : Except Exception (State × Session) :=
  match s.coro.getState s.toInboxes with
  | Except.error e => Except.error e
  | Except.ok (st, co) => Except.ok (st, { s with coro := co })

/-- The member `Session::tryResume`. -/
def Session.tryResume (s : Session) : Outcome Bool Session :=
  match s.coro.tryResume s.toInboxes with
  | Outcome.returned v (env, co) => Outcome.returned v { toInboxes := env, coro := co }
  | Outcome.threw e (env, co) => Outcome.threw e { toInboxes := env, coro := co }
  | Outcome.aborted => Outcome.aborted

/-- The calls of `Session::pushCoro` (each one call of `add_new_coro_callback`) made during
`Session::tryResume`, with the coroutine handed over, in call order. -/
def Session.pushCoroCalls (s : Session) : List Coroutine :=
  s.coro.pushCoroCalls s.toInboxes

/-! ## `awaitables/message.hpp`, `awaitables/callbackquery.hpp` -/

/-- The class `MessageAwaitable`, built from its filter. -/
def MessageAwaitable (m_filter : EventFilter MessagePtr) : Awaitable MessagePtr where
  await_ready := fun _ => false
  await_suspend := fun session =>
    let s1 := { session with message_queue := session.message_queue.setFilter m_filter }
    { s1 with promise := s1.promise.pause (some (fun session => !session.message_queue.empty)) }
  await_resume := fun m_handle session =>
    if !m_handle then none
    else
      let e := session.message_queue.pop
      let s1 := { session with message_queue := e.2 }
      let s2 := { s1 with callback_queue := s1.callback_queue.setFilter {} }
      match e.1 with
      | none => none
      | some value => some (value, s2)

/-- The class `CBQueryAwaitable`, built from its filter. -/
def CBQueryAwaitable (m_filter : EventFilter CallbackQueryPtr) : Awaitable CallbackQueryPtr where
  await_ready := fun _ => false
  await_suspend := fun session =>
    let s1 := { session with callback_queue := session.callback_queue.setFilter m_filter }
    { s1 with promise := s1.promise.pause (some (fun session => !session.callback_queue.empty)) }
  await_resume := fun m_handle session =>
    if !m_handle then none
    else
      let e := session.callback_queue.pop
      let s1 := { session with callback_queue := e.2 }
      let s2 := { s1 with callback_queue := s1.callback_queue.setFilter {} }
      match e.1 with
      | none => none
      | some value => some (value, s2)

/-- The coroutine function `Coro` of the awaitable tests: `co_await t; co_return;`. -/
def Coro {ρ : Type} (t : Awaitable ρ) : Coroutine :=
  Coroutine.start (Body.co_await t (fun _ => Body.co_return))

/-- The coroutine function `Coro` of `test/atgbot/awaitables/create.cpp` applied to
`createCoro(F(..))`, `body` being the body of `F`: `co_await t; co_return;`. -/
def CoroCreate (body : Body) : Coroutine :=
  Coroutine.start (Body.co_await_createCoro body Body.co_return)

/-- The coroutine function `TestCoro` of `test/atgbot/awaitables/create.cpp`: `co_return;`. -/
def TestCoro : Body := Body.co_return

/-- One call made on a session from outside, as the awaitable tests make them:
`message_queue.push`, `callback_queue.push`, `tryResume`, `getStatus`. -/
inductive SessionCall where
  | pushMessage (message : MessagePtr)
  | pushCallback (query : CallbackQueryPtr)
  | tryResume
  | getStatus

/-- The session after one call; `none` when the call threw or had no defined continuation. -/
def Session.call (s : Session) : SessionCall → Option Session
  | .pushMessage message =>
    some { s with message_queue := s.message_queue.push EventFilter.check message }
  | .pushCallback query =>
    some { s with callback_queue := s.callback_queue.push EventFilter.check query }
  | .tryResume =>
    match s.tryResume with
    | Outcome.returned _ after => some after
    | _ => none
  | .getStatus =>
    match s.getStatus with
    | Except.ok (_, after) => some after
    | Except.error _ => none

/-- The session after a sequence of calls, made in list order. -/
def Session.calls (s : Session) : List SessionCall → Option Session
  | [] => some s
  | c :: cs =>
    match s.call c with
    | none => none
    | some s1 => s1.calls cs

/-! ## `tools/eventrouter.hpp` -/

/-- The identity of a session object, as compared by `std::shared_ptr<Session>::operator==`. -/
abbrev SessionId := Nat

/-- The session objects the shared pointers refer to, and the calls of `Session::execute`
made so far (oldest first). `execute` calls `add_to_queue_callback(shared_from_this())`, a
callback supplied by whoever created the session; the model records the call and leaves its
effect to that owner. -/
structure World where
  session : SessionId → Session
  executed : List SessionId := []

/-- The member `Session::execute`, called on the session with identity `self`. -/
def Session.execute (self : SessionId) (w : World) : World :=
  { w with executed := w.executed ++ [self] }

/-- A pointer to member `EventQueue<T> Session::*`: how to read and how to assign that member
of a session; reading after assigning gives what was assigned. -/
structure QueueMember (F T : Type) where
  get : Session → EventQueue F T
  set : Session → EventQueue F T → Session
  get_set : ∀ s q, get (set s q) = q

/-- The member pointer `&Session::message_queue`. -/
def Session.message_queue_ptr : QueueMember (EventFilter MessagePtr) MessagePtr where
  get := fun s => s.message_queue
  set := fun s q => { s with message_queue := q }
  get_set := fun _ _ => rfl

/-- The member pointer `&Session::callback_queue`. -/
def Session.callback_queue_ptr : QueueMember (EventFilter CallbackQueryPtr) CallbackQueryPtr where
  get := fun s => s.callback_queue
  set := fun s q => { s with callback_queue := q }
  get_set := fun _ _ => rfl

/-- The member pointer `&Session::timer_queue`. -/
def Session.timer_queue_ptr : QueueMember TimerFilter TimerEvent where
  get := fun s => s.timer_queue
  set := fun s q => { s with timer_queue := q }
  get_set := fun _ _ => rfl

/-- The class template `EventRouter<T>`; `F` is the filter class of `EventQueue<T>`. -/
structure EventRouter (F T : Type) where
  m_sessions : List SessionId := []
  m_pointer : QueueMember F T

/-- The body of the loop of `EventRouter::route` for one `session` of `m_sessions`:
`((*session.get()).*m_pointer).push(message); session->execute();`. -/
def EventRouter.deliver {F T : Type} (check : F → T → Bool) (m_pointer : QueueMember F T)
    (message : T) (w : World) (session : SessionId) : World :=
  let pushed := (m_pointer.get (w.session session)).push check message
  let w1 := { w with session :=
                Function.update w.session session (m_pointer.set (w.session session) pushed) }
  Session.execute session w1

/-- The member `EventRouter::route`: the router and the world afterwards. -/
def EventRouter.route {F T : Type} (check : F → T → Bool) (r : EventRouter F T) (message : T)
    (w : World) : EventRouter F T × World :=
  (r, r.m_sessions.foldl (EventRouter.deliver check r.m_pointer message) w)

/-- The member `EventRouter::remove`: erase every entry equal to `session`. -/
def EventRouter.remove {F T : Type} (r : EventRouter F T) (session : SessionId) :
    EventRouter F T :=
  { r with m_sessions := r.m_sessions.filter (fun s => !(s == session)) }

/-- The member `EventRouter::update`: the router and the world afterwards. `enabled` reads the
public member `m_enabled` of the filter class `F`. The queue is only read (`hasChanges`,
`getFilter`); nothing is assigned to it. -/
def EventRouter.update {F T : Type} (enabled : F → Bool) (r : EventRouter F T)
    (session : SessionId) (w : World) : EventRouter F T × World :=
  let queue := r.m_pointer.get (w.session session)
  if !queue.hasChanges then (r, w)
  else
    let r1 := r.remove session
    let filter := queue.getFilter
    if enabled filter then ({ r1 with m_sessions := r1.m_sessions ++ [session] }, w)
    else (r1, w)

/-! ## `tools/timerevent.hpp`: the filter -/

/-- The member `EventFilter<TimerEvent>::check`; `now` is the reading `DefaultTimer::now()`
gives when the member runs, as a tick count since the epoch. -/
def TimerFilter.check (now : Int) (f : TimerFilter) (_elem : TimerEvent) : Bool :=
  if !f.m_enabled then false
  else if f.m_time_point ≠ 0 then decide (now ≥ f.m_time_point)
  else true

/-- The member `EventFilter<TimerEvent>::setTimePoint`. -/
def TimerFilter.setTimePoint (f : TimerFilter) (p : Int) : TimerFilter :=
  { f with m_time_point := p }

/-- The member `EventFilter<TimerEvent>::setEnabled`. -/
def TimerFilter.setEnabled (f : TimerFilter) (v : Bool) : TimerFilter :=
  { f with m_enabled := v }

/-! ## `async_bot.hpp` -/

/-- The static member `AsyncBot::checkCommand`; a `std::string` is the list of its
characters: `text == command || text.starts_with(command + " ")`. -/
def AsyncBot.checkCommand (command text : List Char) : Bool :=
  text == command || (command ++ [' ']).isPrefixOf text

/-- The loop `while (task->tryResume()) {}` as the session sees it, cut off after `fuel`
calls. -/
def Session.drive : Nat → Session → Option (Outcome Unit Session)
  | 0, _ => none
  | fuel + 1, s =>
    match s.tryResume with
    | Outcome.returned true s1 => Session.drive fuel s1
    | Outcome.returned false s1 => some (Outcome.returned () s1)
    | Outcome.threw e s1 => some (Outcome.threw e s1)
    | Outcome.aborted => some Outcome.aborted

/-- A body that does not go round a `co_await`. -/
def Body.LoopFree : Body → Prop
  | .co_return => True
  | .throw _ => True
  | .co_await _ rest => ∀ r, (rest r).LoopFree
  | .co_await_createCoro _ rest => rest.LoopFree
  | .loop _ _ _ _ => False
  | .co_await_createCoro_forever _ => False

/-- A suspended coroutine whose remaining body does not go round a `co_await`. -/
def Frame.LoopFree : Frame → Prop
  | .initial body => body.LoopFree
  | .awaiting _ rest => ∀ r, (rest r).LoopFree
  | .final => True

/-- A coroutine whose remaining body does not go round a `co_await`; the null coroutine has no
body. -/
def Coroutine.LoopFree (co : Coroutine) : Prop :=
  ∀ h, co.coro = some h → h.frame.LoopFree

/-! ## `tools/scheduler.hpp` -/

/-- The class `Scheduler`, without its threads, condition variable and timer generator.
`session` holds the session objects by identity and `next_id` is the identity the next
`Session::create` gives (an identity is not reused while a shared pointer to it is held). Every
session is created by `pushCoro`, which binds its two callbacks to `addTaskToQueue` and
`pushCoro` of this scheduler; recorded calls of `Session::execute` and `Session::pushCoro` are
carried out as such. -/
structure Scheduler where
  session : SessionId → Session
  next_id : SessionId := 0
  m_sessions : List SessionId := []
  m_tasks_queue : List SessionId := []
  m_message_router : EventRouter (EventFilter MessagePtr) MessagePtr :=
    { m_pointer := Session.message_queue_ptr }
  m_callback_router : EventRouter (EventFilter CallbackQueryPtr) CallbackQueryPtr :=
    { m_pointer := Session.callback_queue_ptr }
  m_timer_router : EventRouter TimerFilter TimerEvent :=
    { m_pointer := Session.timer_queue_ptr }

/-- The scheduler as its constructor leaves it: no session, nothing queued, empty routers. -/
def Scheduler.new : Scheduler :=
  { session := fun _ => Session.create {} }

/-- The member `Scheduler::addTaskToQueue` (the `notify_one` wakes a worker thread and changes
no data). -/
def Scheduler.addTaskToQueue (s : Scheduler) (task : SessionId) : Scheduler :=
  if task ∈ s.m_tasks_queue then s
  else { s with m_tasks_queue := s.m_tasks_queue ++ [task] }

/-- The calls of `addTaskToQueue` for a list of sessions, in list order. -/
def Scheduler.wake (s : Scheduler) (tasks : List SessionId) : Scheduler :=
  tasks.foldl Scheduler.addTaskToQueue s

/-- The member `Scheduler::pushCoro`. -/
def Scheduler.pushCoro (s : Scheduler) (coro : Coroutine) : Scheduler :=
  let s1 := { s with session := Function.update s.session s.next_id (Session.create coro),
                     next_id := s.next_id + 1,
                     m_sessions := s.m_sessions ++ [s.next_id] }
  s1.addTaskToQueue s.next_id

/-- The calls of `pushCoro` for a list of coroutines, in list order. -/
def Scheduler.pushCoros (s : Scheduler) (coros : List Coroutine) : Scheduler :=
  coros.foldl Scheduler.pushCoro s

/-- The member `Scheduler::handleMessage`: route, each `execute` being `addTaskToQueue`. -/
def Scheduler.handleMessage (s : Scheduler) (message : MessagePtr) : Scheduler :=
  let r := s.m_message_router.route EventFilter.check message { session := s.session }
  ({ s with session := r.2.session, m_message_router := r.1 }).wake r.2.executed

/-- The member `Scheduler::handleCallbackQuery`. -/
def Scheduler.handleCallbackQuery (s : Scheduler) (query : CallbackQueryPtr) : Scheduler :=
  let r := s.m_callback_router.route EventFilter.check query { session := s.session }
  ({ s with session := r.2.session, m_callback_router := r.1 }).wake r.2.executed

/-- The member `Scheduler::handleTimerEvent`; `now` is the clock reading the filters see. -/
def Scheduler.handleTimerEvent (now : Int) (s : Scheduler) (event : TimerEvent) : Scheduler :=
  let r := s.m_timer_router.route (TimerFilter.check now) event { session := s.session }
  ({ s with session := r.2.session, m_timer_router := r.1 }).wake r.2.executed

/-- The member `Scheduler::handleEditedMessage`: the push is commented out in the source, the
call of `addTaskToQueue` for every session is not. -/
def Scheduler.handleEditedMessage (s : Scheduler) (_message : MessagePtr) : Scheduler :=
  s.wake s.m_sessions

/-- The member `Scheduler::handleInlineQuery`, same body. -/
def Scheduler.handleInlineQuery {P : Type} (s : Scheduler) (_query : P) : Scheduler :=
  s.wake s.m_sessions

/-- The member `Scheduler::handleChosenInlineResult`, same body. -/
def Scheduler.handleChosenInlineResult {P : Type} (s : Scheduler) (_result : P) : Scheduler :=
  s.wake s.m_sessions

/-- The member `Scheduler::handleShippingQuery`, same body. -/
def Scheduler.handleShippingQuery {P : Type} (s : Scheduler) (_query : P) : Scheduler :=
  s.wake s.m_sessions

/-- The member `Scheduler::handlePreCheckoutQuery`, same body. -/
def Scheduler.handlePreCheckoutQuery {P : Type} (s : Scheduler) (_query : P) : Scheduler :=
  s.wake s.m_sessions

/-- The member `Scheduler::handlePoll`, same body. -/
def Scheduler.handlePoll {P : Type} (s : Scheduler) (_poll : P) : Scheduler :=
  s.wake s.m_sessions

/-- The member `Scheduler::handlePollAnswer`, same body. -/
def Scheduler.handlePollAnswer {P : Type} (s : Scheduler) (_answer : P) : Scheduler :=
  s.wake s.m_sessions

/-- The member `Scheduler::handleMyChatMember`, same body. -/
def Scheduler.handleMyChatMember {P : Type} (s : Scheduler) (_update : P) : Scheduler :=
  s.wake s.m_sessions

/-- The member `Scheduler::handleChatMember`, same body. -/
def Scheduler.handleChatMember {P : Type} (s : Scheduler) (_update : P) : Scheduler :=
  s.wake s.m_sessions

/-- The member `Scheduler::handleChatJoinRequest`, same body. -/
def Scheduler.handleChatJoinRequest {P : Type} (s : Scheduler) (_request : P) : Scheduler :=
  s.wake s.m_sessions

/-- The member `Scheduler::updateTask`. -/
def Scheduler.updateTask (s : Scheduler) (task : SessionId) : Scheduler :=
  let r1 := s.m_message_router.update EventFilter.m_enabled task { session := s.session }
  let r2 := s.m_callback_router.update EventFilter.m_enabled task r1.2
  let r3 := s.m_timer_router.update TimerFilter.m_enabled task r2.2
  { s with session := r3.2.session,
           m_message_router := r1.1, m_callback_router := r2.1, m_timer_router := r3.1 }

/-- The member `Scheduler::removeSession`. -/
def Scheduler.removeSession (s : Scheduler) (session : SessionId) : Scheduler :=
  { s with m_message_router := s.m_message_router.remove session,
           m_callback_router := s.m_callback_router.remove session,
           m_timer_router := s.m_timer_router.remove session,
           m_sessions := s.m_sessions.filter (fun t => !(t == session)) }

/-- The call `task->tryResume()` made by a worker: the session's `tryResume`, with the
`pushCoro` calls it makes carried out by `Scheduler::pushCoro`. -/
def Scheduler.tryResume (s : Scheduler) (task : SessionId) : Outcome Bool Scheduler :=
  let pushed := (s.session task).pushCoroCalls
  match (s.session task).tryResume with
  | Outcome.returned v after =>
    Outcome.returned v
      (({ s with session := Function.update s.session task after }).pushCoros pushed)
  | Outcome.threw e after =>
    Outcome.threw e
      (({ s with session := Function.update s.session task after }).pushCoros pushed)
  | Outcome.aborted => Outcome.aborted

/-- The call `task->getStatus()` made by a worker. -/
def Scheduler.getStatus (s : Scheduler) (task : SessionId) :
    Except Exception (State × Scheduler) :=
  match (s.session task).getStatus with
  | Except.error e => Except.error e
  | Except.ok (st, after) =>
    Except.ok (st, { s with session := Function.update s.session task after })

/-- The loop `while (task->tryResume()) {}` of `processTask`, cut off after `fuel` calls
(`none`: the loop needs more calls than that). -/
def Scheduler.drive : Nat → Scheduler → SessionId → Option (Outcome Unit Scheduler)
  | 0, _, _ => none
  | fuel + 1, s, task =>
    match s.tryResume task with
    | Outcome.returned true s1 => Scheduler.drive fuel s1 task
    | Outcome.returned false s1 => some (Outcome.returned () s1)
    | Outcome.threw e s1 => some (Outcome.threw e s1)
    | Outcome.aborted => some Outcome.aborted

/-- The statements of `processTask` after the loop: the three status tests, then
`removeSession` or `updateTask`. -/
def Scheduler.settle (s : Scheduler) (task : SessionId) : Outcome Unit Scheduler :=
  match s.getStatus task with
  | Except.error e => Outcome.threw e s
  | Except.ok (st1, s1) =>
    if st1 = State.kNull then Outcome.returned () (s1.removeSession task)
    else
      match s1.getStatus task with
      | Except.error e => Outcome.threw e s1
      | Except.ok (st2, s2) =>
        if st2 = State.kDone then Outcome.returned () (s2.removeSession task)
        else
          match s2.getStatus task with
          | Except.error e => Outcome.threw e s2
          | Except.ok (st3, s3) =>
            if st3 = State.kException then Outcome.returned () (s3.removeSession task)
            else Outcome.returned () (s3.updateTask task)

/-- The member `Scheduler::processTask`. It has no handler: what `tryResume` throws leaves it. -/
def Scheduler.processTask (fuel : Nat) (s : Scheduler) (task : SessionId) :
    Option (Outcome Unit Scheduler) :=
  match s.drive fuel task with
  | none => none
  | some (Outcome.returned _ s1) => some (s1.settle task)
  | some (Outcome.threw e s1) => some (Outcome.threw e s1)
  | some Outcome.aborted => some Outcome.aborted

/-- One round of the loop of `Scheduler::thread` while the scheduler runs: take the front of
the ready queue and process it. With an empty queue the thread waits and changes nothing. The
function has no handler either: an exception leaving `processTask` leaves the thread. -/
def Scheduler.thread (fuel : Nat) (s : Scheduler) : Option (Outcome Unit Scheduler) :=
  match s.m_tasks_queue with
  | [] => some (Outcome.returned () s)
  | task_to_process :: rest =>
    ({ s with m_tasks_queue := rest }).processTask fuel task_to_process

/-- One call on a scheduler: a public member, one round of a worker thread, or a call of
`Session::execute` on one of its sessions from outside the routers (the thread of an off-thread
call does that). The ten handlers with a commented-out push share one entry. -/
inductive SchedulerCall : Type 1 where
  | pushCoro (coro : Coroutine)
  | execute (session : SessionId)
  | handleMessage (message : MessagePtr)
  | handleCallbackQuery (query : CallbackQueryPtr)
  | handleTimerEvent (now : Int) (event : TimerEvent)
  | handleEditedMessage
  | thread (fuel : Nat)

/-- The scheduler after one call; `none` when a worker round did not come back (an exception
left the thread, or the round is not over within its fuel). -/
def Scheduler.call (s : Scheduler) : SchedulerCall → Option Scheduler
  | .pushCoro coro => some (s.pushCoro coro)
  | .execute session => some (s.addTaskToQueue session)
  | .handleMessage message => some (s.handleMessage message)
  | .handleCallbackQuery query => some (s.handleCallbackQuery query)
  | .handleTimerEvent now event => some (s.handleTimerEvent now event)
  | .handleEditedMessage => some (s.handleEditedMessage none)
  | .thread fuel =>
    match s.thread fuel with
    | some (Outcome.returned _ s1) => some s1
    | _ => none

/-- The scheduler after a sequence of calls, made in list order. -/
def Scheduler.calls (s : Scheduler) : List SchedulerCall → Option Scheduler
  | [] => some s
  | c :: cs =>
    match s.call c with
    | none => none
    | some s1 => s1.calls cs

/-- What running coroutines leaves alone in a scheduler: the routers stay, the session list
only gains entries at its back, and a ready queue without repetition stays so. -/
def Scheduler.Extends (s s1 : Scheduler) : Prop :=
  s1.m_message_router = s.m_message_router ∧
  s1.m_callback_router = s.m_callback_router ∧
  s1.m_timer_router = s.m_timer_router ∧
  (∃ l, s1.m_sessions = s.m_sessions ++ l) ∧
  (s.m_tasks_queue.Nodup → s1.m_tasks_queue.Nodup)

/-- The invariant `state == Wait ⇒ resume_pred ≠ null` of the promise. -/
def promise_type.WaitHasCondition {ε : Type} (p : promise_type ε) : Prop :=
  p.m_state = State.kWait → p.m_condition.isSome = true

/-- An awaitable whose `await_suspend` and `await_resume` keep the invariant of the promise. -/
def Awaitable.KeepsCondition {ρ : Type} (a : Awaitable ρ) : Prop :=
  (∀ c : Context, c.promise.WaitHasCondition → (a.await_suspend c).promise.WaitHasCondition) ∧
  (∀ (b : Bool) (c c1 : Context) (r : ρ), c.promise.WaitHasCondition →
    a.await_resume b c = some (r, c1) → c1.promise.WaitHasCondition)

/-- A body all of whose awaitables keep the invariant of the promise. -/
def Body.KeepsCondition : Body → Prop
  | .co_return => True
  | .throw _ => True
  | .co_await a rest => a.KeepsCondition ∧ ∀ r, (rest r).KeepsCondition
  | .co_await_createCoro _ rest => rest.KeepsCondition
  | .loop a _ _ rest => a.KeepsCondition ∧ rest.KeepsCondition
  | .co_await_createCoro_forever _ => True

/-- A suspended coroutine whose remaining awaitables keep the invariant of the promise. -/
def Frame.KeepsCondition : Frame → Prop
  | .initial body => body.KeepsCondition
  | .awaiting a rest => a.KeepsCondition ∧ ∀ r, (rest r).KeepsCondition
  | .final => True

/-- A coroutine whose promise satisfies the invariant and whose remaining awaitables keep it;
the null coroutine has no promise. -/
def Coroutine.WaitHasCondition (co : Coroutine) : Prop :=
  ∀ h, co.coro = some h → h.promise.WaitHasCondition ∧ h.frame.KeepsCondition

/-- An awaitable a user of the library can write: its `await_suspend` calls
`promise().pause({})`, with an empty `std::function`, which the overload accepts. -/
def EmptyPauseAwaitable : Awaitable Unit where
  await_ready := fun _ => false
  await_suspend := fun session => { session with promise := session.promise.pause none }
  await_resume := fun _ session => some ((), session)

/-! ## Call sequences on a router -/

/-- One call of a member of `EventRouter<T>`, with the sessions as they are when it is made. -/
inductive RouterCall (T : Type) : Type 1 where
  | update (session : SessionId) (w : World)
  | remove (session : SessionId)
  | route (message : T) (w : World)

/-- The router after one call. -/
def EventRouter.call {F T : Type} (check : F → T → Bool) (enabled : F → Bool)
    (r : EventRouter F T) : RouterCall T → EventRouter F T
  | .update session w => (r.update enabled session w).1
  | .remove session => r.remove session
  | .route message w => (r.route check message w).1

/-- The router after a sequence of calls, made in list order. -/
def EventRouter.calls {F T : Type} (check : F → T → Bool) (enabled : F → Bool)
    (r : EventRouter F T) (cs : List (RouterCall T)) : EventRouter F T :=
  cs.foldl (EventRouter.call check enabled) r

/-! ## `awaitables/timer.hpp` -/

/-- The class `TimerAwaitable`, built from the time point `deadline` (a tick count). `now` is
the clock reading while `await_ready` runs: it builds a `TimerEvent` and calls the filter's
`check`, which reads the clock. -/
def TimerAwaitable (now : Int) (deadline : Int) : Awaitable Unit where
  await_ready := fun _ =>
    let m_filter : TimerFilter := { m_enabled := true, m_time_point := deadline }
    TimerFilter.check now m_filter { time_point := now }
  await_suspend := fun session =>
    let m_filter : TimerFilter := { m_enabled := true, m_time_point := deadline }
    let s1 := { session with timer_queue := session.timer_queue.setFilter m_filter }
    { s1 with promise := s1.promise.pause (some (fun session => !session.timer_queue.empty)) }
  await_resume := fun m_handle session =>
    if !m_handle then none
    else
      let e := session.timer_queue.pop
      let s1 := { session with timer_queue := e.2 }
      let s2 := { s1 with timer_queue := s1.timer_queue.setFilter {} }
      some ((), s2)

/-- The function template `waitFor`: `called` is the clock reading when it is called,
`duration` the duration in ticks. Tick counts are unbounded integers here; the source adds
64-bit counts, which makes no difference while the sum stays in range. -/
def waitFor (called : Int) (duration : Int) (now : Int) : Awaitable Unit :=
  TimerAwaitable now (called + duration)

/-- The function template `waitUntil`, as it is written to work: the awaitable for the given
time point. (In the source the template hands `time_point_cast` a time point type where it
takes a duration type, so a call of it does not compile.) -/
def waitUntil (time_point : Int) (now : Int) : Awaitable Unit :=
  TimerAwaitable now time_point

/-! ## `awaitables/makeasync.hpp` and its test

`makeAsync::await_suspend` starts a `std::thread`, so a run of the test is an interleaving of
two threads: the one that runs the test case and the one made by `await_suspend`. Each is
given as a step function that runs it up to its next access to what the two share (`m_result`
under `m_mutex`, the atomic `m_ready`, the end of the thread that `join` waits for); a schedule
says whose turn it is. A step of a thread that cannot go on leaves the state as it is. -/

/-- What a call that may have to wait comes to: it cannot go on yet (`blocked`: the mutex is
held, the thread has not finished), it has no defined continuation (`aborted`), it throws, or
it returns. -/
inductive Polled (α : Type) where
  | blocked : Polled α
  | aborted : Polled α
  | threw (e : Exception) : Polled α
  | next (after : α) : Polled α

/-- What a run does that can be seen from outside the awaitable, in the order it happens:
the callable is invoked (its side effect happens then), `m_result` is assigned (`m_ready` is
set), `Session::execute` is called, `await_resume` hands its value to the coroutine. -/
inductive AsyncEvent (A R : Type) where
  | invoked (args : A)
  | stored (result : R)
  | execute
  | resumed (value : R)
  deriving DecidableEq, Repr

/-- Whose turn it is: the thread that runs the test case, or the thread made by
`await_suspend`. -/
inductive Turn where
  | main
  | thread
  deriving DecidableEq, Repr

/-- Where the thread that runs a test case of `makeasync.cpp` is: at the `BOOST_CHECK` before
the loop, at the loop condition `s->getStatus() != kDone`, inside `Coroutine::tryResume` at its
first `getState()`, at `coro.resume()`, at its second `getState()`; past the loop; or stopped
by an exception or an execution without defined continuation. -/
inductive TestPc where
  | check
  | loop
  | tryResume
  | resume
  | recheck
  | finished
  | failed
  deriving DecidableEq, Repr

/-- Where the test's coroutine (`CoroResult`, `CoroNoResult`) is suspended: both bodies are
one `co_await makeAsync(..)` followed by `co_return`. -/
inductive AsyncFrame where
  | initial
  | awaiting
  | final
  deriving DecidableEq, Repr

/-! ### The specialisation for a callable that returns a value -/

/-- Where the thread made by `makeAsync::await_suspend` (value-returning callable) is in its
function: before the call of the callable, before the `std::lock_guard`, before the assignment
to `m_result`, before `m_session->execute()`, before the end of scope that releases the mutex,
or at its end. -/
inductive AsyncThread (R : Type) where
  | invoke
  | lock (result : R)
  | store (result : R)
  | execute
  | unlock
  | finished

/-- The members of `makeAsync<T, Args...>` for a callable that returns `R`; `m_args` is the
argument tuple, `m_thread = none` is the null `unique_ptr`, `m_mutex` is whether the mutex is
held. -/
structure makeAsync (A R : Type) where
  m_object : A → R
  m_args : A
  m_handle : Bool := false
  m_result : Option R := none
  m_thread : Option (AsyncThread R) := none
  m_mutex : Bool := false

/-- The member `makeAsync::await_ready`. -/
def makeAsync.await_ready {A R : Type} (_ : makeAsync A R) : Bool := false

/-- The member `makeAsync::await_suspend`: it stores the handle, creates the thread, and
pauses the coroutine on a closure that reads `m_result.has_value()` (under the mutex, see
`CoroResultTest.getState`). -/
def makeAsync.await_suspend {A R : Type} (m : makeAsync A R) (promise : promise_type (Option R)) :
    makeAsync A R × promise_type (Option R) :=
  ({ m with m_handle := true, m_thread := some AsyncThread.invoke },
   promise.pause (some (fun m_result => m_result.isSome)))

/-- One step of the function the thread runs; `none` when the thread cannot go on: it does not
exist, it waits for the mutex, or it has ended. -/
def makeAsync.thread {A R : Type} (m : makeAsync A R) (trace : List (AsyncEvent A R)) :
    Option (makeAsync A R × List (AsyncEvent A R)) :=
  match m.m_thread with
  | some AsyncThread.invoke =>
    some ({ m with m_thread := some (AsyncThread.lock (m.m_object m.m_args)) },
          trace ++ [AsyncEvent.invoked m.m_args])
  | some (AsyncThread.lock result) =>
    if m.m_mutex then none
    else some ({ m with m_mutex := true, m_thread := some (AsyncThread.store result) }, trace)
  | some (AsyncThread.store result) =>
    some ({ m with m_result := some result, m_thread := some AsyncThread.execute },
          trace ++ [AsyncEvent.stored result])
  | some AsyncThread.execute =>
    some ({ m with m_thread := some AsyncThread.unlock }, trace ++ [AsyncEvent.execute])
  | some AsyncThread.unlock =>
    some ({ m with m_mutex := false, m_thread := some AsyncThread.finished }, trace)
  | some AsyncThread.finished => none
  | none => none

/-- The member `makeAsync::await_resume`: `m_thread->join()` waits for the end of the thread
(a null `m_thread` is dereferenced), and `m_result.value()` on an empty optional throws out of
a `noexcept` function. The test of `has_value()` before it only writes a log line. -/
def makeAsync.await_resume {A R : Type} (m : makeAsync A R) : Polled R :=
  match m.m_thread with
  | none => Polled.aborted
  | some AsyncThread.finished =>
    match m.m_result with
    | none => Polled.aborted
    | some value => Polled.next value
  | some _ => Polled.blocked

/-- The test case `CoroResultTest` while it runs: where its thread is, the promise and the
suspension point of the coroutine `CoroResult`, the awaitable in the coroutine frame, the
variable `result` the coroutine assigns to, and what has happened so far. The variables `test`
and `callback` are set by the callable and by the queue callback: they are true exactly when
the trace holds `invoked` and `execute`. -/
structure CoroResultTest (A R : Type) where
  pc : TestPc := TestPc.check
  promise : promise_type (Option R) := ({} : promise_type (Option R)).initial_suspend
  frame : AsyncFrame := AsyncFrame.initial
  awaitable : makeAsync A R
  result : R
  trace : List (AsyncEvent A R) := []

/-- The test case at its start: `CoroResult` has been called with a callable `f` and its
arguments, the session made, `result` holds its initial value. -/
def CoroResultTest.start {A R : Type} (f : A → R) (args : A) (result : R) : CoroResultTest A R :=
  { awaitable := { m_object := f, m_args := args }, result := result }

/-- The call `promise().getState()` that `Session::getStatus` and `Coroutine::tryResume` make:
in `kWait` with a condition it calls the closure given to `pause`, which takes `m_mutex` (and
waits while the thread holds it) and reads `m_result`. -/
def CoroResultTest.getState {A R : Type} (t : CoroResultTest A R) :
    Polled (State × CoroResultTest A R) :=
  if t.promise.m_state = State.kWait ∧ t.promise.m_condition.isSome = true
      ∧ t.awaitable.m_mutex = true then Polled.blocked
  else
    match t.promise.getState t.awaitable.m_result with
    | Except.error e => Polled.threw e
    | Except.ok (st, p) => Polled.next (st, { t with promise := p })

/-- The call `coro.resume()` on `CoroResult`: from the start the body runs to the `co_await`
(`await_ready`, then `await_suspend`, or `await_resume` at once); from the `co_await` it runs
`await_resume`, assigns `result` and returns (`final_suspend`). -/
def CoroResultTest.resume {A R : Type} (t : CoroResultTest A R) : Polled (CoroResultTest A R) :=
  match t.frame with
  | AsyncFrame.initial =>
    if t.awaitable.await_ready then
      match t.awaitable.await_resume with
      | Polled.next value =>
        Polled.next { t with result := value, trace := t.trace ++ [AsyncEvent.resumed value],
                             promise := t.promise.final_suspend, frame := AsyncFrame.final }
      | Polled.blocked => Polled.blocked
      | Polled.aborted => Polled.aborted
      | Polled.threw e => Polled.threw e
    else
      Polled.next { t with awaitable := (t.awaitable.await_suspend t.promise).1,
                           promise := (t.awaitable.await_suspend t.promise).2,
                           frame := AsyncFrame.awaiting }
  | AsyncFrame.awaiting =>
    match t.awaitable.await_resume with
    | Polled.next value =>
      Polled.next { t with result := value, trace := t.trace ++ [AsyncEvent.resumed value],
                           promise := t.promise.final_suspend, frame := AsyncFrame.final }
    | Polled.blocked => Polled.blocked
    | Polled.aborted => Polled.aborted
    | Polled.threw e => Polled.threw e
  | AsyncFrame.final => Polled.aborted

/-- One step of the thread that runs the test case: `getStatus()` in the check and in the loop
condition, and `tryResume()` in its three parts (`getState()` and the switch, `coro.resume()`,
`getState()` and the rethrow of a stored exception). -/
def CoroResultTest.main {A R : Type} (t : CoroResultTest A R) : CoroResultTest A R :=
  match t.pc with
  | TestPc.check =>
    match t.getState with
    | Polled.next (_, t1) => { t1 with pc := TestPc.loop }
    | Polled.blocked => t
    | _ => { t with pc := TestPc.failed }
  | TestPc.loop =>
    match t.getState with
    | Polled.next (st, t1) =>
      if st = State.kDone then { t1 with pc := TestPc.finished }
      else { t1 with pc := TestPc.tryResume }
    | Polled.blocked => t
    | _ => { t with pc := TestPc.failed }
  | TestPc.tryResume =>
    match t.getState with
    | Polled.next (st, t1) =>
      if st = State.kReady then { t1 with pc := TestPc.resume }
      else { t1 with pc := TestPc.loop }
    | Polled.blocked => t
    | _ => { t with pc := TestPc.failed }
  | TestPc.resume =>
    match t.resume with
    | Polled.next t1 => { t1 with pc := TestPc.recheck }
    | Polled.blocked => t
    | _ => { t with pc := TestPc.failed }
  | TestPc.recheck =>
    match t.getState with
    | Polled.next (st, t1) =>
      if st = State.kException then { t1 with pc := TestPc.failed }
      else { t1 with pc := TestPc.loop }
    | Polled.blocked => t
    | _ => { t with pc := TestPc.failed }
  | TestPc.finished => t
  | TestPc.failed => t

/-- One step of the thread whose turn it is. -/
def CoroResultTest.step {A R : Type} (t : CoroResultTest A R) : Turn → CoroResultTest A R
  | Turn.main => t.main
  | Turn.thread =>
    match t.awaitable.thread t.trace with
    | some (m, trace) => { t with awaitable := m, trace := trace }
    | none => t

/-- The test case run under a schedule. -/
def CoroResultTest.run {A R : Type} (t : CoroResultTest A R) (schedule : List Turn) :
    CoroResultTest A R :=
  schedule.foldl CoroResultTest.step t

/-- A schedule that gives each thread its turn, `n` times over. -/
def Turn.fair : Nat → List Turn
  | 0 => []
  | n + 1 => Turn.main :: Turn.thread :: Turn.fair n

/-! ### The specialisation for a callable that returns nothing -/

/-- Where the thread made by `makeAsync::await_suspend` (void callable) is in its function:
before the call of the callable, before `m_ready = true`, before `m_session->execute()`, or at
its end. -/
inductive AsyncThreadVoid where
  | invoke
  | ready
  | execute
  | finished
  deriving DecidableEq, Repr

/-- The members of `makeAsync<T, Args...>` for a callable that returns `void`. The callable
has no value: all a call of it does is its side effect, the event `invoked`. -/
structure makeAsyncVoid (A : Type) where
  m_args : A
  m_handle : Bool := false
  m_ready : Bool := false
  m_thread : Option AsyncThreadVoid := none

/-- The member `await_ready` of the void specialisation. -/
def makeAsyncVoid.await_ready {A : Type} (_ : makeAsyncVoid A) : Bool := false

/-- The member `await_suspend` of the void specialisation: it stores the handle, creates the
thread, and pauses the coroutine on a closure that returns `m_ready.load()`. -/
def makeAsyncVoid.await_suspend {A : Type} (m : makeAsyncVoid A) (promise : promise_type Bool) :
    makeAsyncVoid A × promise_type Bool :=
  ({ m with m_handle := true, m_thread := some AsyncThreadVoid.invoke },
   promise.pause (some (fun m_ready => m_ready)))

/-- One step of the function the thread runs; `none` when the thread does not exist or has
ended. -/
def makeAsyncVoid.thread {A : Type} (m : makeAsyncVoid A) (trace : List (AsyncEvent A Unit)) :
    Option (makeAsyncVoid A × List (AsyncEvent A Unit)) :=
  match m.m_thread with
  | some AsyncThreadVoid.invoke =>
    some ({ m with m_thread := some AsyncThreadVoid.ready },
          trace ++ [AsyncEvent.invoked m.m_args])
  | some AsyncThreadVoid.ready =>
    some ({ m with m_ready := true, m_thread := some AsyncThreadVoid.execute },
          trace ++ [AsyncEvent.stored ()])
  | some AsyncThreadVoid.execute =>
    some ({ m with m_thread := some AsyncThreadVoid.finished }, trace ++ [AsyncEvent.execute])
  | some AsyncThreadVoid.finished => none
  | none => none

/-- The member `await_resume` of the void specialisation: `m_thread->join()`. -/
def makeAsyncVoid.await_resume {A : Type} (m : makeAsyncVoid A) : Polled Unit :=
  match m.m_thread with
  | none => Polled.aborted
  | some AsyncThreadVoid.finished => Polled.next ()
  | some _ => Polled.blocked

/-- The test case `CoroNoResultTest` while it runs, as `CoroResultTest`, without a variable
for a result. -/
structure CoroNoResultTest (A : Type) where
  pc : TestPc := TestPc.check
  promise : promise_type Bool := ({} : promise_type Bool).initial_suspend
  frame : AsyncFrame := AsyncFrame.initial
  awaitable : makeAsyncVoid A
  trace : List (AsyncEvent A Unit) := []

/-- The test case at its start. -/
def CoroNoResultTest.start {A : Type} (args : A) : CoroNoResultTest A :=
  { awaitable := { m_args := args } }

/-- The call `promise().getState()`; the closure given to `pause` reads the atomic
`m_ready`. -/
def CoroNoResultTest.getState {A : Type} (t : CoroNoResultTest A) :
    Polled (State × CoroNoResultTest A) :=
  match t.promise.getState t.awaitable.m_ready with
  | Except.error e => Polled.threw e
  | Except.ok (st, p) => Polled.next (st, { t with promise := p })

/-- The call `coro.resume()` on `CoroNoResult`. -/
def CoroNoResultTest.resume {A : Type} (t : CoroNoResultTest A) : Polled (CoroNoResultTest A) :=
  match t.frame with
  | AsyncFrame.initial =>
    if t.awaitable.await_ready then
      match t.awaitable.await_resume with
      | Polled.next value =>
        Polled.next { t with trace := t.trace ++ [AsyncEvent.resumed value],
                             promise := t.promise.final_suspend, frame := AsyncFrame.final }
      | Polled.blocked => Polled.blocked
      | Polled.aborted => Polled.aborted
      | Polled.threw e => Polled.threw e
    else
      Polled.next { t with awaitable := (t.awaitable.await_suspend t.promise).1,
                           promise := (t.awaitable.await_suspend t.promise).2,
                           frame := AsyncFrame.awaiting }
  | AsyncFrame.awaiting =>
    match t.awaitable.await_resume with
    | Polled.next value =>
      Polled.next { t with trace := t.trace ++ [AsyncEvent.resumed value],
                           promise := t.promise.final_suspend, frame := AsyncFrame.final }
    | Polled.blocked => Polled.blocked
    | Polled.aborted => Polled.aborted
    | Polled.threw e => Polled.threw e
  | AsyncFrame.final => Polled.aborted

/-- One step of the thread that runs the test case, as `CoroResultTest.main`. -/
def CoroNoResultTest.main {A : Type} (t : CoroNoResultTest A) : CoroNoResultTest A :=
  match t.pc with
  | TestPc.check =>
    match t.getState with
    | Polled.next (_, t1) => { t1 with pc := TestPc.loop }
    | Polled.blocked => t
    | _ => { t with pc := TestPc.failed }
  | TestPc.loop =>
    match t.getState with
    | Polled.next (st, t1) =>
      if st = State.kDone then { t1 with pc := TestPc.finished }
      else { t1 with pc := TestPc.tryResume }
    | Polled.blocked => t
    | _ => { t with pc := TestPc.failed }
  | TestPc.tryResume =>
    match t.getState with
    | Polled.next (st, t1) =>
      if st = State.kReady then { t1 with pc := TestPc.resume }
      else { t1 with pc := TestPc.loop }
    | Polled.blocked => t
    | _ => { t with pc := TestPc.failed }
  | TestPc.resume =>
    match t.resume with
    | Polled.next t1 => { t1 with pc := TestPc.recheck }
    | Polled.blocked => t
    | _ => { t with pc := TestPc.failed }
  | TestPc.recheck =>
    match t.getState with
    | Polled.next (st, t1) =>
      if st = State.kException then { t1 with pc := TestPc.failed }
      else { t1 with pc := TestPc.loop }
    | Polled.blocked => t
    | _ => { t with pc := TestPc.failed }
  | TestPc.finished => t
  | TestPc.failed => t

/-- One step of the thread whose turn it is. -/
def CoroNoResultTest.step {A : Type} (t : CoroNoResultTest A) : Turn → CoroNoResultTest A
  | Turn.main => t.main
  | Turn.thread =>
    match t.awaitable.thread t.trace with
    | some (m, trace) => { t with awaitable := m, trace := trace }
    | none => t

/-- The test case run under a schedule. -/
def CoroNoResultTest.run {A : Type} (t : CoroNoResultTest A) (schedule : List Turn) :
    CoroNoResultTest A :=
  schedule.foldl CoroNoResultTest.step t

/-! ### The states the two test cases pass through -/

/-- Where the thread of the value specialisation is, without the value it carries. -/
inductive ThreadAt where
  | invoke
  | lock
  | store
  | execute
  | unlock
  | finished
  deriving DecidableEq, Repr

/-- Whether the thread holds `m_mutex` there. -/
def ThreadAt.holds : ThreadAt → Bool
  | ThreadAt.store => true
  | ThreadAt.execute => true
  | ThreadAt.unlock => true
  | _ => false

/-- The thread's next place. -/
def ThreadAt.next : ThreadAt → ThreadAt
  | ThreadAt.invoke => ThreadAt.lock
  | ThreadAt.lock => ThreadAt.store
  | ThreadAt.store => ThreadAt.execute
  | ThreadAt.execute => ThreadAt.unlock
  | ThreadAt.unlock => ThreadAt.finished
  | ThreadAt.finished => ThreadAt.finished

/-- The stages of a run of `CoroResultTest`: the thread is not made yet; the coroutine is
suspended in `kWait` and the thread somewhere in its function; the test's thread has seen the
result (`kReady`) after the end of the thread; the coroutine has returned. -/
inductive ResultPhase where
  | created (pc : TestPc)
  | running (th : ThreadAt) (pc : TestPc)
  | woken (pc : TestPc)
  | over (pc : TestPc)
  deriving DecidableEq, Repr

/-- The places of the test's thread that go with a stage. -/
def ResultPhase.valid : ResultPhase → Bool
  | ResultPhase.created pc =>
    pc = TestPc.check || pc = TestPc.loop || pc = TestPc.tryResume || pc = TestPc.resume
  | ResultPhase.running _ pc => pc = TestPc.recheck || pc = TestPc.loop || pc = TestPc.tryResume
  | ResultPhase.woken pc => pc = TestPc.loop || pc = TestPc.tryResume || pc = TestPc.resume
  | ResultPhase.over pc => pc = TestPc.recheck || pc = TestPc.loop || pc = TestPc.finished

/-- The value-carrying place of the thread. -/
def ThreadAt.thread {R : Type} (result : R) : ThreadAt → AsyncThread R
  | ThreadAt.invoke => AsyncThread.invoke
  | ThreadAt.lock => AsyncThread.lock result
  | ThreadAt.store => AsyncThread.store result
  | ThreadAt.execute => AsyncThread.execute
  | ThreadAt.unlock => AsyncThread.unlock
  | ThreadAt.finished => AsyncThread.finished

/-- What has happened when the thread is at a place. -/
def ThreadAt.trace {A R : Type} (args : A) (result : R) : ThreadAt → List (AsyncEvent A R)
  | ThreadAt.invoke => []
  | ThreadAt.lock => [AsyncEvent.invoked args]
  | ThreadAt.store => [AsyncEvent.invoked args]
  | ThreadAt.execute => [AsyncEvent.invoked args, AsyncEvent.stored result]
  | ThreadAt.unlock => [AsyncEvent.invoked args, AsyncEvent.stored result, AsyncEvent.execute]
  | ThreadAt.finished => [AsyncEvent.invoked args, AsyncEvent.stored result, AsyncEvent.execute]

/-- Whether `m_result` is assigned when the thread is at a place. -/
def ThreadAt.stored : ThreadAt → Bool
  | ThreadAt.execute => true
  | ThreadAt.unlock => true
  | ThreadAt.finished => true
  | _ => false

/-- The state of the test case at a stage. -/
def ResultPhase.state {A R : Type} (f : A → R) (args : A) (result : R) :
    ResultPhase → CoroResultTest A R
  | ResultPhase.created pc =>
    { pc := pc, awaitable := { m_object := f, m_args := args }, result := result }
  | ResultPhase.running th pc =>
    { pc := pc
      promise := ({} : promise_type (Option R)).initial_suspend.pause
        (some (fun m_result => m_result.isSome))
      frame := AsyncFrame.awaiting
      awaitable := { m_object := f, m_args := args, m_handle := true
                     m_result := (if th.stored then some (f args) else none)
                     m_thread := some (th.thread (f args))
                     m_mutex := th.holds }
      result := result
      trace := th.trace args (f args) }
  | ResultPhase.woken pc =>
    { pc := pc
      promise := { ({} : promise_type (Option R)).initial_suspend.pause
        (some (fun m_result => m_result.isSome)) with m_state := State.kReady }
      frame := AsyncFrame.awaiting
      awaitable := { m_object := f, m_args := args, m_handle := true
                     m_result := some (f args)
                     m_thread := some AsyncThread.finished }
      result := result
      trace := [AsyncEvent.invoked args, AsyncEvent.stored (f args), AsyncEvent.execute] }
  | ResultPhase.over pc =>
    { pc := pc
      promise := { ({} : promise_type (Option R)).initial_suspend.pause
        (some (fun m_result => m_result.isSome)) with m_state := State.kDone }
      frame := AsyncFrame.final
      awaitable := { m_object := f, m_args := args, m_handle := true
                     m_result := some (f args)
                     m_thread := some AsyncThread.finished }
      result := f args
      trace := [AsyncEvent.invoked args, AsyncEvent.stored (f args), AsyncEvent.execute,
                AsyncEvent.resumed (f args)] }

/-- The stage after one step of the thread whose turn it is. -/
def ResultPhase.next : ResultPhase → Turn → ResultPhase
  | ResultPhase.created TestPc.check, Turn.main => ResultPhase.created TestPc.loop
  | ResultPhase.created TestPc.loop, Turn.main => ResultPhase.created TestPc.tryResume
  | ResultPhase.created TestPc.tryResume, Turn.main => ResultPhase.created TestPc.resume
  | ResultPhase.created TestPc.resume, Turn.main =>
    ResultPhase.running ThreadAt.invoke TestPc.recheck
  | ResultPhase.running th pc, Turn.thread => ResultPhase.running th.next pc
  | ResultPhase.running th pc, Turn.main =>
    if th.holds then ResultPhase.running th pc
    else if th = ThreadAt.finished then
      ResultPhase.woken (if pc = TestPc.recheck then TestPc.loop
        else if pc = TestPc.loop then TestPc.tryResume else TestPc.resume)
    else
      ResultPhase.running th (if pc = TestPc.loop then TestPc.tryResume else TestPc.loop)
  | ResultPhase.woken TestPc.loop, Turn.main => ResultPhase.woken TestPc.tryResume
  | ResultPhase.woken TestPc.tryResume, Turn.main => ResultPhase.woken TestPc.resume
  | ResultPhase.woken TestPc.resume, Turn.main => ResultPhase.over TestPc.recheck
  | ResultPhase.over TestPc.recheck, Turn.main => ResultPhase.over TestPc.loop
  | ResultPhase.over TestPc.loop, Turn.main => ResultPhase.over TestPc.finished
  | c, _ => c

/-- The stages of a run of `CoroNoResultTest`; the atomic `m_ready` can be seen set while the
thread is still before or in `execute()`, so `woken` has the thread's place too. -/
inductive NoResultPhase where
  | created (pc : TestPc)
  | running (th : AsyncThreadVoid) (pc : TestPc)
  | woken (th : AsyncThreadVoid) (pc : TestPc)
  | over (pc : TestPc)
  deriving DecidableEq, Repr

/-- The places of the two threads that go with a stage. -/
def NoResultPhase.valid : NoResultPhase → Bool
  | NoResultPhase.created pc =>
    pc = TestPc.check || pc = TestPc.loop || pc = TestPc.tryResume || pc = TestPc.resume
  | NoResultPhase.running _ pc => pc = TestPc.recheck || pc = TestPc.loop || pc = TestPc.tryResume
  | NoResultPhase.woken th pc =>
    (th = AsyncThreadVoid.execute || th = AsyncThreadVoid.finished) &&
    (pc = TestPc.loop || pc = TestPc.tryResume || pc = TestPc.resume)
  | NoResultPhase.over pc => pc = TestPc.recheck || pc = TestPc.loop || pc = TestPc.finished

/-- The thread's next place. -/
def AsyncThreadVoid.next : AsyncThreadVoid → AsyncThreadVoid
  | AsyncThreadVoid.invoke => AsyncThreadVoid.ready
  | AsyncThreadVoid.ready => AsyncThreadVoid.execute
  | AsyncThreadVoid.execute => AsyncThreadVoid.finished
  | AsyncThreadVoid.finished => AsyncThreadVoid.finished

/-- What has happened when the thread is at a place. -/
def AsyncThreadVoid.trace {A : Type} (args : A) : AsyncThreadVoid → List (AsyncEvent A Unit)
  | AsyncThreadVoid.invoke => []
  | AsyncThreadVoid.ready => [AsyncEvent.invoked args]
  | AsyncThreadVoid.execute => [AsyncEvent.invoked args, AsyncEvent.stored ()]
  | AsyncThreadVoid.finished =>
    [AsyncEvent.invoked args, AsyncEvent.stored (), AsyncEvent.execute]

/-- Whether `m_ready` is set when the thread is at a place. -/
def AsyncThreadVoid.stored : AsyncThreadVoid → Bool
  | AsyncThreadVoid.execute => true
  | AsyncThreadVoid.finished => true
  | _ => false

/-- The state of the test case at a stage. -/
def NoResultPhase.state {A : Type} (args : A) : NoResultPhase → CoroNoResultTest A
  | NoResultPhase.created pc => { pc := pc, awaitable := { m_args := args } }
  | NoResultPhase.running th pc =>
    { pc := pc
      promise := ({} : promise_type Bool).initial_suspend.pause (some (fun m_ready => m_ready))
      frame := AsyncFrame.awaiting
      awaitable := { m_args := args, m_handle := true, m_ready := th.stored, m_thread := some th }
      trace := th.trace args }
  | NoResultPhase.woken th pc =>
    { pc := pc
      promise := { ({} : promise_type Bool).initial_suspend.pause (some (fun m_ready => m_ready))
        with m_state := State.kReady }
      frame := AsyncFrame.awaiting
      awaitable := { m_args := args, m_handle := true, m_ready := true, m_thread := some th }
      trace := th.trace args }
  | NoResultPhase.over pc =>
    { pc := pc
      promise := { ({} : promise_type Bool).initial_suspend.pause (some (fun m_ready => m_ready))
        with m_state := State.kDone }
      frame := AsyncFrame.final
      awaitable := { m_args := args, m_handle := true, m_ready := true
                     m_thread := some AsyncThreadVoid.finished }
      trace := [AsyncEvent.invoked args, AsyncEvent.stored (), AsyncEvent.execute,
                AsyncEvent.resumed ()] }

/-- The stage after one step of the thread whose turn it is. -/
def NoResultPhase.next : NoResultPhase → Turn → NoResultPhase
  | NoResultPhase.created TestPc.check, Turn.main => NoResultPhase.created TestPc.loop
  | NoResultPhase.created TestPc.loop, Turn.main => NoResultPhase.created TestPc.tryResume
  | NoResultPhase.created TestPc.tryResume, Turn.main => NoResultPhase.created TestPc.resume
  | NoResultPhase.created TestPc.resume, Turn.main =>
    NoResultPhase.running AsyncThreadVoid.invoke TestPc.recheck
  | NoResultPhase.running th pc, Turn.thread => NoResultPhase.running th.next pc
  | NoResultPhase.running th pc, Turn.main =>
    if th.stored then
      NoResultPhase.woken th (if pc = TestPc.recheck then TestPc.loop
        else if pc = TestPc.loop then TestPc.tryResume else TestPc.resume)
    else
      NoResultPhase.running th (if pc = TestPc.loop then TestPc.tryResume else TestPc.loop)
  | NoResultPhase.woken th pc, Turn.thread => NoResultPhase.woken th.next pc
  | NoResultPhase.woken th TestPc.loop, Turn.main => NoResultPhase.woken th TestPc.tryResume
  | NoResultPhase.woken th TestPc.tryResume, Turn.main => NoResultPhase.woken th TestPc.resume
  | NoResultPhase.woken th TestPc.resume, Turn.main =>
    if th = AsyncThreadVoid.finished then NoResultPhase.over TestPc.recheck
    else NoResultPhase.woken th TestPc.resume
  | NoResultPhase.over TestPc.recheck, Turn.main => NoResultPhase.over TestPc.loop
  | NoResultPhase.over TestPc.loop, Turn.main => NoResultPhase.over TestPc.finished
  | c, _ => c

/-! ## Theorems -/

/-- C1. `check` is true exactly when the filter is enabled and either no additional predicate
is set or the predicate accepts the event; a default-constructed filter, and every filter after
`setEnabled(false)`, rejects every event. -/
theorem EventFilter.check_contract {T : Type} (f : EventFilter T) (e : T) :
    (f.check e = true ↔
      f.m_enabled = true ∧
        (f.m_additional_filter = none ∨ ∃ p, f.m_additional_filter = some p ∧ p e = true)) ∧
    (default : EventFilter T).check e = false ∧
    (f.setEnabled false).check e = false := by
  refine ⟨?_, rfl, rfl⟩
  rcases f with ⟨en, add⟩
  cases en <;> cases add <;> simp [EventFilter.check]


/-! ### Helper lemmas on `EventQueue` -/

theorem EventQueue.clearLoop_eq_nil {T : Type} (l : List T) : EventQueue.clearLoop l = [] := by
  induction l with
  | nil => rfl
  | cons _ _ ih => simpa [EventQueue.clearLoop] using ih

theorem EventQueue.clear_eq {F T : Type} (q : EventQueue F T) :
    q.clear = { q with m_queue := [] } := by
  simp [EventQueue.clear, EventQueue.clearLoop_eq_nil]

theorem EventQueue.setFilter_eq {F T : Type} (q : EventQueue F T) (f : F) :
    q.setFilter f = { m_filter := f, m_has_changes := true, m_queue := [] } := by
  simp [EventQueue.setFilter, EventQueue.clear_eq]

theorem EventQueue.push_eq {F T : Type} (check : F → T → Bool) (q : EventQueue F T) (e : T) :
    q.push check e =
      { q with m_queue := if check q.m_filter e then q.m_queue ++ [e] else q.m_queue } := by
  unfold EventQueue.push
  split <;> rfl

theorem EventQueue.pop_snd_eq {F T : Type} (q : EventQueue F T) :
    q.pop.2 = { q with m_queue := q.m_queue.tail } := by
  unfold EventQueue.pop
  split <;> rename_i h <;> simp [h]
  rcases q with ⟨f, c, l⟩
  simp only at h
  subst h
  rfl

theorem EventQueue.pop_fst_eq {F T : Type} (q : EventQueue F T) :
    q.pop.1 = q.m_queue.head? := by
  unfold EventQueue.pop
  split <;> rename_i h <;> simp [h]

theorem EventQueue.calls_snoc {F T : Type} (check : F → T → Bool) (q : EventQueue F T)
    (cs : List (QueueCall F T)) (c : QueueCall F T) :
    q.calls check (cs ++ [c]) = (q.calls check cs).call check c := by
  simp [EventQueue.calls, List.foldl_append]

theorem EventQueue.pushAll_eq {F T : Type} (check : F → T → Bool) (q : EventQueue F T)
    (es : List T) :
    q.pushAll check es = { q with m_queue := q.m_queue ++ es.filter (check q.m_filter) } := by
  induction es generalizing q with
  | nil => simp [EventQueue.pushAll]
  | cons e es ih =>
    have h : q.pushAll check (e :: es) = (q.push check e).pushAll check es := rfl
    rw [h, ih, EventQueue.push_eq]
    by_cases hc : check q.m_filter e = true <;> simp [hc, List.filter_cons]

theorem EventQueue.popN_eq {F T : Type} (n : Nat) (q : EventQueue F T) :
    EventQueue.popN n q =
      ((List.range n).map (fun i => q.m_queue.get? i), { q with m_queue := q.m_queue.drop n }) := by
  induction n generalizing q with
  | zero => simp [EventQueue.popN]
  | succ n ih =>
    simp only [EventQueue.popN, ih, EventQueue.pop_snd_eq, EventQueue.pop_fst_eq]
    refine Prod.ext ?_ ?_
    · simp only [List.range_succ_eq_map, List.map_cons, List.map_map]
      congr 1
      · cases q.m_queue <;> rfl
      · apply List.map_congr_left
        intro i _
        cases q.m_queue <;> simp
    · cases hq : q.m_queue <;> simp

/-- Every element buffered by a queue that started default-constructed is admitted by the
current filter, and some earlier `push` of it found the filter of that moment admitting it. -/
theorem EventQueue.buffered_accepted {F T : Type} [Inhabited F] (check : F → T → Bool)
    (cs : List (QueueCall F T)) (x : T)
    (hx : x ∈ ((default : EventQueue F T).calls check cs).m_queue) :
    check ((default : EventQueue F T).calls check cs).m_filter x = true ∧
    ∃ before after, cs = before ++ QueueCall.push x :: after ∧
      check ((default : EventQueue F T).calls check before).m_filter x = true := by
  induction cs using List.reverseRecOn with
  | nil => simp [EventQueue.calls, default] at hx
  | append_singleton cs c ih =>
    rw [EventQueue.calls_snoc] at hx ⊢
    have lift : (check ((default : EventQueue F T).calls check cs).m_filter x = true ∧
        ∃ before after, cs = before ++ QueueCall.push x :: after ∧
          check ((default : EventQueue F T).calls check before).m_filter x = true) →
        ∃ before after, cs ++ [c] = before ++ QueueCall.push x :: after ∧
          check ((default : EventQueue F T).calls check before).m_filter x = true := by
      rintro ⟨_, before, after, hcs, hb⟩
      exact ⟨before, after ++ [c], by simp [hcs], hb⟩
    cases c with
    | setFilter f => simp [EventQueue.call, EventQueue.setFilter_eq] at hx
    | clear => simp [EventQueue.call, EventQueue.clear_eq] at hx
    | resetChanges =>
      have h := ih (by simpa [EventQueue.call, EventQueue.resetChanges] using hx)
      exact ⟨by simpa [EventQueue.call, EventQueue.resetChanges] using h.1, lift h⟩
    | pop =>
      simp only [EventQueue.call, EventQueue.pop_snd_eq] at hx ⊢
      have h := ih (List.mem_of_mem_tail hx)
      exact ⟨h.1, lift h⟩
    | push e =>
      simp only [EventQueue.call, EventQueue.push_eq] at hx ⊢
      by_cases hc : check ((default : EventQueue F T).calls check cs).m_filter e = true
      · simp only [hc, if_true, List.mem_append, List.mem_singleton] at hx
        rcases hx with hx | rfl
        · have h := ih hx
          exact ⟨h.1, lift h⟩
        · exact ⟨hc, cs, [], rfl, hc⟩
      · simp only [hc] at hx
        have h := ih (by simpa using hx)
        exact ⟨h.1, lift h⟩

/-! ### The claims -/

/-- C2. `push(e)` appends `e` at the back when the current filter admits it and otherwise
leaves the queue (hence `empty()`) as it was; so, in a queue that started default-constructed,
every buffered element was admitted by the filter in force when it was pushed (which is still
the current filter). -/
theorem EventQueue.push_contract {T : Type} (q : EventQueue (EventFilter T) T) (e : T) :
    (q.m_filter.check e = true →
      q.push EventFilter.check e = { q with m_queue := q.m_queue ++ [e] }) ∧
    (q.m_filter.check e = false →
      q.push EventFilter.check e = q ∧ (q.push EventFilter.check e).empty = q.empty) ∧
    (∀ (cs : List (QueueCall (EventFilter T) T)) (x : T),
      x ∈ ((default : EventQueue (EventFilter T) T).calls EventFilter.check cs).m_queue →
        ((default : EventQueue (EventFilter T) T).calls EventFilter.check cs).m_filter.check x
            = true ∧
        ∃ before after, cs = before ++ QueueCall.push x :: after ∧
          ((default : EventQueue (EventFilter T) T).calls EventFilter.check before).m_filter.check x
            = true) := by
  refine ⟨?_, ?_, ?_⟩
  · intro h
    simp [EventQueue.push, h]
  · intro h
    simp [EventQueue.push, h]
  · intro cs x hx
    exact EventQueue.buffered_accepted EventFilter.check cs x hx

/-- C2, at a concrete queue: an even-only filter admits `4` and rejects `5`. -/
theorem EventQueue.push_contract_witness :
    ((({ m_filter := { m_enabled := true, m_additional_filter := some (fun n => n % 2 == 0) },
         m_queue := [2] } : EventQueue (EventFilter Nat) Nat).push EventFilter.check 4).m_queue
      = [2, 4]) ∧
    ((({ m_filter := { m_enabled := true, m_additional_filter := some (fun n => n % 2 == 0) },
         m_queue := [2] } : EventQueue (EventFilter Nat) Nat).push EventFilter.check 5).m_queue
      = [2]) ∧
    (∃ before after,
      [QueueCall.setFilter ({ m_enabled := true } : EventFilter Nat), QueueCall.push 7]
        = before ++ QueueCall.push 7 :: after) := by
  refine ⟨?_, ?_, ?_⟩
  · have h := (EventQueue.push_contract
      ({ m_filter := { m_enabled := true, m_additional_filter := some (fun n => n % 2 == 0) },
         m_queue := [2] } : EventQueue (EventFilter Nat) Nat) 4).1 rfl
    exact (congrArg EventQueue.m_queue h).trans rfl
  · have h := ((EventQueue.push_contract
      ({ m_filter := { m_enabled := true, m_additional_filter := some (fun n => n % 2 == 0) },
         m_queue := [2] } : EventQueue (EventFilter Nat) Nat) 5).2.1 rfl).1
    exact (congrArg EventQueue.m_queue h).trans rfl
  · obtain ⟨_, before, after, h, _⟩ := (EventQueue.push_contract
      (default : EventQueue (EventFilter Nat) Nat) 0).2.2
      [QueueCall.setFilter ({ m_enabled := true } : EventFilter Nat), QueueCall.push 7] 7
      (by simp [EventQueue.calls, EventQueue.call, EventQueue.setFilter_eq, EventQueue.push,
        EventFilter.check])
    exact ⟨before, after, h⟩

theorem EventQueue.range_map_get? {T : Type} (l : List T) :
    (List.range l.length).map (fun i => l.get? i) = l.map some := by
  apply List.ext_get?
  intro i
  by_cases h : i < l.length
  · simp [List.getElem?_eq_getElem, h]
  · simp [List.getElem?_eq_none, Nat.le_of_not_lt h]

/-- C3. `pop` on a non-empty queue returns the oldest buffered element and removes only it;
on an empty queue it returns no value and changes nothing; hence, the filter staying the same,
successive pops return the admitted events in the order they were pushed. -/
theorem EventQueue.pop_fifo {F T : Type} (check : F → T → Bool) (q : EventQueue F T) :
    (∀ x rest, q.m_queue = x :: rest → q.pop = (some x, { q with m_queue := rest })) ∧
    (q.m_queue = [] → q.pop = (none, q)) ∧
    (∀ (es : List T) (n : Nat),
      EventQueue.popN n (q.pushAll check es) =
        ((List.range n).map (fun i => (q.m_queue ++ es.filter (check q.m_filter)).get? i),
         { q with m_queue := (q.m_queue ++ es.filter (check q.m_filter)).drop n })) ∧
    (∀ (f : F) (es : List T),
      EventQueue.popN (es.filter (check f)).length ((q.setFilter f).pushAll check es) =
        ((es.filter (check f)).map some, q.setFilter f)) := by
  refine ⟨?_, ?_, ?_, ?_⟩
  · intro x rest h
    simp [EventQueue.pop, h]
  · intro h
    simp [EventQueue.pop, h]
  · intro es n
    rw [EventQueue.popN_eq, EventQueue.pushAll_eq]
  · intro f es
    rw [EventQueue.popN_eq, EventQueue.pushAll_eq, EventQueue.setFilter_eq]
    simp only [List.nil_append, List.drop_length, EventQueue.range_map_get?]

/-- C3, at a concrete queue holding `[1, 2]`, and at an empty one. -/
theorem EventQueue.pop_fifo_witness :
    (({ m_filter := (), m_queue := [1, 2] } : EventQueue Unit Nat).pop.1 = some 1) ∧
    (({ m_filter := (), m_queue := [1, 2] } : EventQueue Unit Nat).pop.2.m_queue = [2]) ∧
    (({ m_filter := (), m_queue := [] } : EventQueue Unit Nat).pop.1 = none) := by
  refine ⟨?_, ?_, ?_⟩
  · exact (congrArg Prod.fst ((EventQueue.pop_fifo (fun _ _ => true)
      ({ m_filter := (), m_queue := [1, 2] } : EventQueue Unit Nat)).1 1 [2] rfl)).trans rfl
  · exact (congrArg (fun r => r.2.m_queue) ((EventQueue.pop_fifo (fun _ _ => true)
      ({ m_filter := (), m_queue := [1, 2] } : EventQueue Unit Nat)).1 1 [2] rfl)).trans rfl
  · exact (congrArg Prod.fst ((EventQueue.pop_fifo (fun _ _ => true)
      ({ m_filter := (), m_queue := [] } : EventQueue Unit Nat)).2.1 rfl)).trans rfl

/-- C4. After `setFilter(f)`, whatever the queue held: `getFilter()` is `f`, the queue is
empty, and `hasChanges()` is true. -/
theorem EventQueue.setFilter_contract {F T : Type} (q : EventQueue F T) (f : F) :
    (q.setFilter f).getFilter = f ∧
    (q.setFilter f).empty = true ∧
    (q.setFilter f).m_queue = [] ∧
    (q.setFilter f).hasChanges = true := by
  rw [EventQueue.setFilter_eq]
  exact ⟨rfl, rfl, rfl, rfl⟩

/-- C5. The dirty flag is false after `resetChanges`, true after `setFilter`, and keeps its
value across `push` (admitted or rejected), `pop` and `clear`; `empty` and `getFilter` are
observers that return no new queue. So among all calls only `setFilter` and `resetChanges`
change it. -/
theorem EventQueue.dirty_flag {F T : Type} (check : F → T → Bool) (q : EventQueue F T) :
    q.resetChanges.hasChanges = false ∧
    (∀ f, (q.setFilter f).hasChanges = true) ∧
    (∀ e, (q.push check e).hasChanges = q.hasChanges) ∧
    q.pop.2.hasChanges = q.hasChanges ∧
    q.clear.hasChanges = q.hasChanges ∧
    (∀ c : QueueCall F T, (q.call check c).hasChanges =
      match c with
      | .setFilter _ => true
      | .resetChanges => false
      | _ => q.hasChanges) := by
  have hpush : ∀ e, (q.push check e).hasChanges = q.hasChanges := by
    intro e
    rw [EventQueue.push_eq]
    rfl
  have hpop : q.pop.2.hasChanges = q.hasChanges := by
    rw [EventQueue.pop_snd_eq]
    rfl
  refine ⟨rfl, ?_, hpush, hpop, rfl, ?_⟩
  · intro f
    rw [EventQueue.setFilter_eq]
    rfl
  · intro c
    cases c with
    | setFilter f => simp [EventQueue.call, EventQueue.setFilter_eq, EventQueue.hasChanges]
    | clear => rfl
    | push e => exact hpush e
    | pop => exact hpop
    | resetChanges => rfl

/-- C6, as the code has it. Refreshing a promise in `kWait` whose resume condition is set gives
`kDone` when the abort condition is set and true (whatever the resume condition says),
otherwise `kReady` when the resume condition is true, otherwise `kWait`; nothing but the state
changes. Refreshing a promise in `kWait` whose resume condition is empty throws, whatever the
abort condition says. Refreshing a promise in any other state changes nothing. `getState`
returns the refreshed state. -/
theorem promise_type.updateState_contract {ε : Type} (env : ε) (p : promise_type ε) :
    (∀ c, p.m_state = State.kWait → p.m_condition = some c →
      p.updateState env = Except.ok { p with m_state := (if fires p.m_abort_condition env
        then State.kDone else if c env then State.kReady else State.kWait) } ∧
      p.getState env = Except.ok
        (if fires p.m_abort_condition env then State.kDone
          else if c env then State.kReady else State.kWait,
         { p with m_state := (if fires p.m_abort_condition env
            then State.kDone else if c env then State.kReady else State.kWait) })) ∧
    (p.m_state ≠ State.kWait →
      p.updateState env = Except.ok p ∧ p.getState env = Except.ok (p.m_state, p)) ∧
    (p.m_state = State.kWait → p.m_condition = none →
      p.updateState env = Except.error sleepsWithoutCondition) := by
  refine ⟨?_, ?_, ?_⟩
  · intro c hw hc
    have hu : p.updateState env = Except.ok { p with m_state := (if fires p.m_abort_condition env
        then State.kDone else if c env then State.kReady else State.kWait) } := by
      rcases p with ⟨cond, ab, ex, st⟩
      simp only at hw hc
      subst hw hc
      have hf : fires (some c) env = c env := rfl
      by_cases h1 : c env = true <;> by_cases h2 : fires ab env = true <;>
        simp [promise_type.updateState, hf, h1, h2]
    refine ⟨hu, ?_⟩
    simp only [promise_type.getState, hu]
  · intro hn
    have hu : p.updateState env = Except.ok p := by
      simp [promise_type.updateState, hn]
    exact ⟨hu, by simp only [promise_type.getState, hu]⟩
  · intro hw hc
    simp [promise_type.updateState, hw, hc]

/-- C6, at concrete promises reading a number: abort wins over resume, resume alone gives
`kReady`, and a `kDone` promise is left alone. -/
theorem promise_type.updateState_contract_witness :
    (({ m_condition := some (fun n => decide (0 < n)),
        m_abort_condition := some (fun n => decide (5 < n)),
        m_state := State.kWait } : promise_type Nat).getState 7).map Prod.fst
      = Except.ok State.kDone ∧
    (({ m_condition := some (fun n => decide (0 < n)),
        m_abort_condition := some (fun n => decide (5 < n)),
        m_state := State.kWait } : promise_type Nat).getState 3).map Prod.fst
      = Except.ok State.kReady ∧
    (({ m_state := State.kDone } : promise_type Nat).getState 3).map Prod.fst
      = Except.ok State.kDone := by
  refine ⟨?_, ?_, ?_⟩
  · rw [((promise_type.updateState_contract 7
      ({ m_condition := some (fun n => decide (0 < n)),
         m_abort_condition := some (fun n => decide (5 < n)),
         m_state := State.kWait } : promise_type Nat)).1 _ rfl rfl).2]
    rfl
  · rw [((promise_type.updateState_contract 3
      ({ m_condition := some (fun n => decide (0 < n)),
         m_abort_condition := some (fun n => decide (5 < n)),
         m_state := State.kWait } : promise_type Nat)).1 _ rfl rfl).2]
    rfl
  · rw [((promise_type.updateState_contract 3
      ({ m_state := State.kDone } : promise_type Nat)).2.1 (by decide)).2]
    rfl

/-- C6 fails as stated: a promise paused with an empty resume condition and an abort condition
that is set and true is in `kWait`, and the refresh throws instead of giving `kDone`; so does
the refresh of a promise paused with the one-argument overload on an empty function, where
the claim has `kWait`. -/
theorem promise_type.updateState_counterexample :
    (({} : promise_type Unit).initial_suspend.pause2 none (some (fun _ => true))).m_state
      = State.kWait ∧
    fires (({} : promise_type Unit).initial_suspend.pause2 none
      (some (fun _ => true))).m_abort_condition () = true ∧
    (({} : promise_type Unit).initial_suspend.pause2 none (some (fun _ => true))).updateState ()
      = Except.error sleepsWithoutCondition ∧
    (({} : promise_type Unit).initial_suspend.pause2 none (some (fun _ => true))).getState ()
      = Except.error sleepsWithoutCondition ∧
    (({} : promise_type Unit).initial_suspend.pause none).getState ()
      = Except.error sleepsWithoutCondition :=
  ⟨rfl, rfl, rfl, rfl, rfl⟩

/-! ### The awaitable tests -/

theorem EventQueue.push_accepted {F T : Type} (check : F → T → Bool) (q : EventQueue F T) (e : T)
    (h : check q.m_filter e = true) :
    q.push check e = { q with m_queue := q.m_queue ++ [e] } := by
  simp [EventQueue.push, h]

/-- C8. The session around `co_await x; co_return` with `x` a message awaitable whose filter
`f` admits `e` (so `f` is enabled): status `kReady` on creation; the first `tryResume`
(also when the inbox flag was reset before, as in the test) leaves status `kWait` and the
message inbox dirty; a further `tryResume` returns false and changes nothing; after pushing
`e` the status is `kReady`; one more `tryResume` (with or without that status query in
between) leaves status `kDone` and the message inbox empty. The same with a callback-query
awaitable, its filter `g`, an admitted `d`, and the callback inbox. -/
theorem Session.lifecycle (f : EventFilter MessagePtr) (e : MessagePtr)
    (g : EventFilter CallbackQueryPtr) (d : CallbackQueryPtr)
    (he : f.check e = true) (hd : g.check d = true) :
    ((Session.create (Coro (MessageAwaitable f))).getStatus
        = Except.ok (State.kReady, Session.create (Coro (MessageAwaitable f))) ∧
      ∃ s1 s2 s3 : Session,
        (Session.create (Coro (MessageAwaitable f))).tryResume = Outcome.returned true s1 ∧
        ({ Session.create (Coro (MessageAwaitable f)) with
            message_queue := (Session.create (Coro (MessageAwaitable f))).message_queue.resetChanges
          } : Session).tryResume = Outcome.returned true s1 ∧
        s1.message_queue.hasChanges = true ∧
        s1.getStatus = Except.ok (State.kWait, s1) ∧
        s1.tryResume = Outcome.returned false s1 ∧
        ({ s1 with message_queue := s1.message_queue.push EventFilter.check e } : Session).getStatus
          = Except.ok (State.kReady, s2) ∧
        ({ s1 with message_queue := s1.message_queue.push EventFilter.check e } : Session).tryResume
          = Outcome.returned true s3 ∧
        s2.tryResume = Outcome.returned true s3 ∧
        s3.getStatus = Except.ok (State.kDone, s3) ∧
        s3.message_queue.empty = true) ∧
    ((Session.create (Coro (CBQueryAwaitable g))).getStatus
        = Except.ok (State.kReady, Session.create (Coro (CBQueryAwaitable g))) ∧
      ∃ s1 s2 s3 : Session,
        (Session.create (Coro (CBQueryAwaitable g))).tryResume = Outcome.returned true s1 ∧
        ({ Session.create (Coro (CBQueryAwaitable g)) with
            callback_queue := (Session.create (Coro (CBQueryAwaitable g))).callback_queue.resetChanges
          } : Session).tryResume = Outcome.returned true s1 ∧
        s1.callback_queue.hasChanges = true ∧
        s1.getStatus = Except.ok (State.kWait, s1) ∧
        s1.tryResume = Outcome.returned false s1 ∧
        ({ s1 with callback_queue := s1.callback_queue.push EventFilter.check d } : Session).getStatus
          = Except.ok (State.kReady, s2) ∧
        ({ s1 with callback_queue := s1.callback_queue.push EventFilter.check d } : Session).tryResume
          = Outcome.returned true s3 ∧
        s2.tryResume = Outcome.returned true s3 ∧
        s3.getStatus = Except.ok (State.kDone, s3) ∧
        s3.callback_queue.empty = true) := by
  constructor
  · refine ⟨rfl,
      { message_queue := { m_filter := f },
        coro := { coro := some { promise := { m_condition := some (fun s => !s.message_queue.empty),
                                              m_state := State.kWait },
                                 frame := Frame.awaiting (MessageAwaitable f) (fun _ => Body.co_return) } } },
      ?_⟩
    rw [EventQueue.push_accepted EventFilter.check _ e he]
    exact ⟨_, _, rfl, rfl, rfl, rfl, rfl, rfl, rfl, rfl, rfl, rfl⟩
  · refine ⟨rfl,
      { callback_queue := { m_filter := g },
        coro := { coro := some { promise := { m_condition := some (fun s => !s.callback_queue.empty),
                                              m_state := State.kWait },
                                 frame := Frame.awaiting (CBQueryAwaitable g) (fun _ => Body.co_return) } } },
      ?_⟩
    rw [EventQueue.push_accepted EventFilter.check _ d hd]
    exact ⟨_, _, rfl, rfl, rfl, rfl, rfl, rfl, rfl, rfl, rfl, rfl⟩

/-- C8, with the filters and events of the two tests: enabled filters without a predicate,
and `nullptr` as the pushed event. -/
theorem Session.lifecycle_witness :
    ∃ s1 s3 : Session,
      (Session.create (Coro (MessageAwaitable { m_enabled := true }))).tryResume
        = Outcome.returned true s1 ∧
      ({ s1 with message_queue := s1.message_queue.push EventFilter.check none } : Session).tryResume
        = Outcome.returned true s3 ∧
      s3.getStatus = Except.ok (State.kDone, s3) ∧
      s3.message_queue.empty = true := by
  obtain ⟨_, s1, _, s3, h1, _, _, _, _, _, h3, _, h4, h5⟩ :=
    (Session.lifecycle { m_enabled := true } none { m_enabled := true } none rfl rfl).1
  exact ⟨s1, s3, h1, h3, h4, h5⟩

/-- C9, on the code: after the message awaitable of the test has resumed (the whole life cycle
of C8, enabled filter, `nullptr` pushed), the message inbox still carries the enabled filter
and admits a later push; it is the callback inbox that was given the default filter. -/
theorem MessageAwaitable.await_resume_keeps_message_filter :
    ∃ s1 s3 : Session,
      (Session.create (Coro (MessageAwaitable { m_enabled := true }))).tryResume
        = Outcome.returned true s1 ∧
      ({ s1 with message_queue := s1.message_queue.push EventFilter.check none } : Session).tryResume
        = Outcome.returned true s3 ∧
      s3.getStatus = Except.ok (State.kDone, s3) ∧
      s3.message_queue.getFilter.m_enabled = true ∧
      (s3.message_queue.push EventFilter.check none).empty = false ∧
      s3.callback_queue.getFilter.m_enabled = false :=
  ⟨_, _, rfl, rfl, rfl, rfl, rfl, rfl⟩

/-- The sibling of C9 that the code gets right: when a callback-query awaitable resumes, the
callback inbox it read from is left empty with the default, disabled filter. -/
theorem CBQueryAwaitable.await_resume_disables_filter (g : EventFilter CallbackQueryPtr)
    (c c1 : Context) (v : CallbackQueryPtr)
    (h : (CBQueryAwaitable g).await_resume true c = some (v, c1)) :
    c1.callback_queue.getFilter.m_enabled = false ∧
    ∀ d, c1.callback_queue.push EventFilter.check d = c1.callback_queue := by
  have hq : c1.callback_queue = { m_filter := {}, m_has_changes := true, m_queue := [] } := by
    simp only [CBQueryAwaitable, Bool.not_true, Bool.false_eq_true, if_false] at h
    split at h
    · cases h
    · simp only [Option.some.injEq, Prod.mk.injEq] at h
      rw [← h.2, EventQueue.setFilter_eq]
  rw [hq]
  exact ⟨rfl, fun _ => rfl⟩

/-! ### `EventRouter::route` -/

theorem EventRouter.foldl_deliver_executed {F T : Type} (check : F → T → Bool)
    (m : QueueMember F T) (e : T) (l : List SessionId) (w : World) :
    (l.foldl (EventRouter.deliver check m e) w).executed = w.executed ++ l := by
  induction l generalizing w with
  | nil => simp
  | cons x l ih =>
    rw [List.foldl_cons, ih]
    simp [EventRouter.deliver, Session.execute]

theorem EventRouter.foldl_deliver_outside {F T : Type} (check : F → T → Bool)
    (m : QueueMember F T) (e : T) (l : List SessionId) (w : World) (id : SessionId)
    (h : id ∉ l) :
    (l.foldl (EventRouter.deliver check m e) w).session id = w.session id := by
  induction l generalizing w with
  | nil => rfl
  | cons x l ih =>
    rw [List.foldl_cons, ih _ (fun hm => h (List.mem_cons_of_mem _ hm))]
    have hx : id ≠ x := fun hx => h (hx ▸ List.mem_cons_self _ _)
    simp [EventRouter.deliver, Session.execute, Function.update_noteq hx]

theorem EventRouter.foldl_deliver_member {F T : Type} (check : F → T → Bool)
    (m : QueueMember F T) (e : T) (l : List SessionId) (w : World) (id : SessionId)
    (hn : l.Nodup) (h : id ∈ l) :
    (l.foldl (EventRouter.deliver check m e) w).session id =
      m.set (w.session id) ((m.get (w.session id)).push check e) := by
  induction l generalizing w with
  | nil => cases h
  | cons x l ih =>
    rw [List.nodup_cons] at hn
    rw [List.foldl_cons]
    by_cases hx : id = x
    · subst hx
      rw [EventRouter.foldl_deliver_outside check m e l _ id hn.1]
      simp [EventRouter.deliver, Session.execute]
    · have hl : id ∈ l := by
        rcases List.mem_cons.mp h with h1 | h1
        · exact absurd h1 hx
        · exact h1
      rw [ih _ hn.2 hl]
      simp [EventRouter.deliver, Session.execute, Function.update_noteq hx]

theorem EventRouter.foldl_deliver_get {F T : Type} (check : F → T → Bool)
    (m : QueueMember F T) (e : T) (l : List SessionId) (w : World) (id : SessionId) :
    m.get ((l.foldl (EventRouter.deliver check m e) w).session id) =
      (fun q => EventQueue.push check q e)^[l.count id] (m.get (w.session id)) := by
  induction l generalizing w with
  | nil => rfl
  | cons x l ih =>
    rw [List.foldl_cons, ih]
    by_cases hx : id = x
    · subst hx
      rw [List.count_cons_self, Function.iterate_succ_apply]
      simp [EventRouter.deliver, Session.execute, m.get_set]
    · rw [List.count_cons_of_ne hx]
      simp [EventRouter.deliver, Session.execute, Function.update_noteq hx]

/-- C10. `route(e)`, in every state: `execute` is called once for each entry of the router's
session list, in list order, admitted or not; a session outside the list is unchanged; the
list is unchanged; the inbox the router's member pointer designates has received one `push(e)`
per entry of the list for that session; and so, the list holding no session twice, each
session in it has `e` pushed once into that inbox, which gains `e` at its back exactly when
its current filter admits `e` and is unchanged otherwise. -/
theorem EventRouter.route_contract {F T : Type} (check : F → T → Bool) (r : EventRouter F T)
    (e : T) (w : World) :
    (r.route check e w).1 = r ∧
    (r.route check e w).2.executed = w.executed ++ r.m_sessions ∧
    (∀ id, id ∉ r.m_sessions → (r.route check e w).2.session id = w.session id) ∧
    (∀ id, r.m_pointer.get ((r.route check e w).2.session id) =
      (fun q => EventQueue.push check q e)^[r.m_sessions.count id]
        (r.m_pointer.get (w.session id))) ∧
    (r.m_sessions.Nodup → ∀ id, id ∈ r.m_sessions →
      (r.route check e w).2.session id =
        r.m_pointer.set (w.session id) ((r.m_pointer.get (w.session id)).push check e) ∧
      r.m_pointer.get ((r.route check e w).2.session id) =
        { r.m_pointer.get (w.session id) with
          m_queue := if check (r.m_pointer.get (w.session id)).m_filter e
            then (r.m_pointer.get (w.session id)).m_queue ++ [e]
            else (r.m_pointer.get (w.session id)).m_queue }) := by
  refine ⟨rfl, EventRouter.foldl_deliver_executed check r.m_pointer e r.m_sessions w,
    fun id h => EventRouter.foldl_deliver_outside check r.m_pointer e r.m_sessions w id h,
    fun id => EventRouter.foldl_deliver_get check r.m_pointer e r.m_sessions w id, ?_⟩
  intro hn id h
  have hs := EventRouter.foldl_deliver_member check r.m_pointer e r.m_sessions w id hn h
  refine ⟨hs, ?_⟩
  show r.m_pointer.get ((r.m_sessions.foldl (EventRouter.deliver check r.m_pointer e) w).session id)
    = _
  rw [hs, r.m_pointer.get_set, EventQueue.push_eq]

/-- C10, at a message router over sessions `0` and `1` of a world whose sessions all carry an
enabled message filter: session `1` receives the routed `nullptr`. -/
theorem EventRouter.route_contract_witness :
    ((({ m_sessions := [0, 1], m_pointer := Session.message_queue_ptr } :
        EventRouter (EventFilter MessagePtr) MessagePtr).route EventFilter.check none
      { session := fun _ => { message_queue := { m_filter := { m_enabled := true } },
                              coro := {} } }).2.session 1).message_queue.m_queue = [none] :=
  (congrArg EventQueue.m_queue
    (((EventRouter.route_contract EventFilter.check
      ({ m_sessions := [0, 1], m_pointer := Session.message_queue_ptr } :
        EventRouter (EventFilter MessagePtr) MessagePtr) none
      { session := fun _ => { message_queue := { m_filter := { m_enabled := true } },
                              coro := {} } }).2.2.2.2 (by decide) 1 (by decide)).2)).trans rfl

/-! ### `EventRouter::update` -/

theorem EventRouter.mem_remove {F T : Type} (r : EventRouter F T) (session other : SessionId) :
    other ∈ (r.remove session).m_sessions ↔ other ∈ r.m_sessions ∧ other ≠ session := by
  simp [EventRouter.remove]

/-- C11. `update(session)`: when the inbox the router governs is not dirty, the router is
returned as it was; when it is dirty, afterwards the session is in the router's list exactly
when the inbox filter is enabled, and every other session is in the list exactly when it was
before. -/
theorem EventRouter.update_contract {F T : Type} (enabled : F → Bool) (r : EventRouter F T)
    (session : SessionId) (w : World) :
    ((r.m_pointer.get (w.session session)).hasChanges = false →
      (r.update enabled session w).1 = r) ∧
    ((r.m_pointer.get (w.session session)).hasChanges = true →
      (session ∈ (r.update enabled session w).1.m_sessions ↔
        enabled (r.m_pointer.get (w.session session)).getFilter = true) ∧
      (∀ other, other ≠ session →
        (other ∈ (r.update enabled session w).1.m_sessions ↔ other ∈ r.m_sessions))) := by
  constructor
  · intro h
    simp [EventRouter.update, h]
  · intro h
    by_cases he : enabled (r.m_pointer.get (w.session session)).getFilter = true
    · have hu : (r.update enabled session w).1 =
          { r.remove session with m_sessions := (r.remove session).m_sessions ++ [session] } := by
        simp [EventRouter.update, h, he]
      rw [hu]
      refine ⟨by simp [he], ?_⟩
      intro other hne
      simp [EventRouter.mem_remove, hne]
    · have hu : (r.update enabled session w).1 = r.remove session := by
        simp [EventRouter.update, h, he]
      rw [hu]
      refine ⟨by simp [EventRouter.mem_remove, he], ?_⟩
      intro other hne
      simp [EventRouter.mem_remove, hne]

/-- C11, at a message router holding sessions `0` and `1`: a dirty inbox with an enabled
filter brings session `2` in and keeps session `1`; an inbox that is not dirty leaves the
router alone. -/
theorem EventRouter.update_contract_witness :
    (2 ∈ (({ m_sessions := [0, 1], m_pointer := Session.message_queue_ptr } :
        EventRouter (EventFilter MessagePtr) MessagePtr).update EventFilter.m_enabled 2
      { session := fun _ => { message_queue := { m_filter := { m_enabled := true } },
                              coro := {} } }).1.m_sessions) ∧
    (1 ∈ (({ m_sessions := [0, 1], m_pointer := Session.message_queue_ptr } :
        EventRouter (EventFilter MessagePtr) MessagePtr).update EventFilter.m_enabled 2
      { session := fun _ => { message_queue := { m_filter := { m_enabled := true } },
                              coro := {} } }).1.m_sessions) ∧
    ((({ m_sessions := [0, 1], m_pointer := Session.message_queue_ptr } :
        EventRouter (EventFilter MessagePtr) MessagePtr).update EventFilter.m_enabled 2
      { session := fun _ => { message_queue := { m_filter := { m_enabled := true },
                                                 m_has_changes := false },
                              coro := {} } }).1.m_sessions = [0, 1]) := by
  refine ⟨?_, ?_, ?_⟩
  · exact (((EventRouter.update_contract EventFilter.m_enabled
      ({ m_sessions := [0, 1], m_pointer := Session.message_queue_ptr } :
        EventRouter (EventFilter MessagePtr) MessagePtr) 2
      { session := fun _ => { message_queue := { m_filter := { m_enabled := true } },
                              coro := {} } }).2 rfl).1).2 rfl
  · exact ((((EventRouter.update_contract EventFilter.m_enabled
      ({ m_sessions := [0, 1], m_pointer := Session.message_queue_ptr } :
        EventRouter (EventFilter MessagePtr) MessagePtr) 2
      { session := fun _ => { message_queue := { m_filter := { m_enabled := true } },
                              coro := {} } }).2 rfl).2 1 (by decide))).2 (by decide)
  · exact (congrArg EventRouter.m_sessions ((EventRouter.update_contract EventFilter.m_enabled
      ({ m_sessions := [0, 1], m_pointer := Session.message_queue_ptr } :
        EventRouter (EventFilter MessagePtr) MessagePtr) 2
      { session := fun _ => { message_queue := { m_filter := { m_enabled := true },
                                                 m_has_changes := false },
                              coro := {} } }).1 rfl)).trans rfl

/-- C12, on the code: `update` assigns nothing to the inbox, so in every state the sessions
are as before and the inbox flag keeps its value; on a dirty inbox `hasChanges()` is still
true afterwards, and a second `update` runs the removal and re-insertion again (here it moves
session `0` behind session `1` a first time and finds the flag still set). -/
theorem EventRouter.update_keeps_dirty {F T : Type} (enabled : F → Bool) (r : EventRouter F T)
    (session : SessionId) (w : World) :
    (r.update enabled session w).2 = w ∧
    (r.m_pointer.get ((r.update enabled session w).2.session session)).hasChanges =
      (r.m_pointer.get (w.session session)).hasChanges ∧
    ((({ m_sessions := [0, 1], m_pointer := Session.message_queue_ptr } :
        EventRouter (EventFilter MessagePtr) MessagePtr).update EventFilter.m_enabled 0
      { session := fun _ => { message_queue := { m_filter := { m_enabled := true } },
                              coro := {} } }).1.m_sessions = [1, 0]) ∧
    (((({ m_sessions := [0, 1], m_pointer := Session.message_queue_ptr } :
        EventRouter (EventFilter MessagePtr) MessagePtr).update EventFilter.m_enabled 0
      { session := fun _ => { message_queue := { m_filter := { m_enabled := true } },
                              coro := {} } }).2.session 0).message_queue.hasChanges = true) := by
  have h : (r.update enabled session w).2 = w := by
    unfold EventRouter.update
    simp only
    split
    · rfl
    · split <;> rfl
  exact ⟨h, by rw [h], rfl, rfl⟩

/-! ### The timer filter and the command match -/

/-- C18. The timer filter's `check` is true exactly when the filter is enabled and either no
deadline is set (the stored time point is the value-initialised one) or the clock reading is
at or after the deadline; a disabled filter rejects every event; the event passed in plays no
part. -/
theorem TimerFilter.timer_check_contract (now : Int) (f : TimerFilter) (e e2 : TimerEvent) :
    (TimerFilter.check now f e = true ↔
      f.m_enabled = true ∧ (f.m_time_point = 0 ∨ f.m_time_point ≤ now)) ∧
    TimerFilter.check now (f.setEnabled false) e = false ∧
    TimerFilter.check now (default : TimerFilter) e = false ∧
    TimerFilter.check now f e = TimerFilter.check now f e2 := by
  refine ⟨?_, rfl, rfl, rfl⟩
  rcases f with ⟨en, tp⟩
  by_cases h0 : tp = 0 <;> cases en <;> simp [TimerFilter.check, h0]

theorem AsyncBot.isPrefixOf_iff (p l : List Char) :
    p.isPrefixOf l = true ↔ ∃ rest, l = p ++ rest := by
  induction p generalizing l with
  | nil => simp
  | cons a p ih =>
    cases l with
    | nil => simp [List.isPrefixOf]
    | cons b l =>
      simp only [List.isPrefixOf, Bool.and_eq_true, beq_iff_eq, ih, List.cons_append,
        List.cons.injEq]
      constructor
      · rintro ⟨rfl, rest, rfl⟩
        exact ⟨rest, rfl, rfl⟩
      · rintro ⟨rest, rfl, rfl⟩
        exact ⟨rfl, rest, rfl⟩

/-- C17. `checkCommand(command, text)` is true exactly when `text` equals `command` or is
`command`, one space, and anything after; with `/start`: `/start` and `/start now` match,
`/startx`, `/star` and ` /start` do not. -/
theorem AsyncBot.checkCommand_contract (command text : List Char) :
    (AsyncBot.checkCommand command text = true ↔
      text = command ∨ ∃ rest, text = command ++ ' ' :: rest) ∧
    AsyncBot.checkCommand "/start".toList "/start".toList = true ∧
    AsyncBot.checkCommand "/start".toList "/start now".toList = true ∧
    AsyncBot.checkCommand "/start".toList "/startx".toList = false ∧
    AsyncBot.checkCommand "/start".toList "/star".toList = false ∧
    AsyncBot.checkCommand "/start".toList " /start".toList = false := by
  refine ⟨?_, by decide, by decide, by decide, by decide, by decide⟩
  simp only [AsyncBot.checkCommand, Bool.or_eq_true, beq_iff_eq, AsyncBot.isPrefixOf_iff,
    List.append_assoc, List.singleton_append]

/-! ### Suspension on a disabled filter, and `createCoro` -/

theorem EventFilter.check_disabled {T : Type} (f : EventFilter T) (e : T)
    (h : f.m_enabled = false) : f.check e = false := by
  simp [EventFilter.check, h]

theorem EventQueue.push_rejected {F T : Type} (check : F → T → Bool) (q : EventQueue F T) (e : T)
    (h : check q.m_filter e = false) : q.push check e = q := by
  simp [EventQueue.push, h]

theorem Session.calls_fixed (s : Session) (h : ∀ c, s.call c = some s) (cs : List SessionCall) :
    s.calls cs = some s := by
  induction cs with
  | nil => rfl
  | cons c cs ih => simp [Session.calls, h c, ih]

/-- C19. The session around `co_await x; co_return` with `x` a message awaitable whose filter
`f` is disabled (the default filter is): after the first `tryResume` the status is `kWait` and
the message inbox is empty, and every sequence of pushes of any events, `tryResume` and
`getStatus` calls leaves the session exactly as it is, so the status stays `kWait` and the
inbox stays empty. The same with a callback-query awaitable and a disabled filter `g`. -/
theorem Session.null_filter_waits (f : EventFilter MessagePtr) (g : EventFilter CallbackQueryPtr)
    (hf : f.m_enabled = false) (hg : g.m_enabled = false) :
    (∃ s1 : Session,
      (Session.create (Coro (MessageAwaitable f))).tryResume = Outcome.returned true s1 ∧
      s1.getStatus = Except.ok (State.kWait, s1) ∧
      s1.message_queue.empty = true ∧
      ∀ cs : List SessionCall, s1.calls cs = some s1) ∧
    (∃ s1 : Session,
      (Session.create (Coro (CBQueryAwaitable g))).tryResume = Outcome.returned true s1 ∧
      s1.getStatus = Except.ok (State.kWait, s1) ∧
      s1.callback_queue.empty = true ∧
      ∀ cs : List SessionCall, s1.calls cs = some s1) := by
  constructor
  · refine ⟨_, rfl, rfl, rfl, fun cs => Session.calls_fixed _ ?_ cs⟩
    intro c
    cases c with
    | pushMessage m =>
      simp only [Session.call]
      rw [EventQueue.push_rejected EventFilter.check _ m (EventFilter.check_disabled f m hf)]
    | pushCallback q =>
      simp only [Session.call]
      rw [EventQueue.push_rejected EventFilter.check _ q (EventFilter.check_disabled _ q rfl)]
    | tryResume => rfl
    | getStatus => rfl
  · refine ⟨_, rfl, rfl, rfl, fun cs => Session.calls_fixed _ ?_ cs⟩
    intro c
    cases c with
    | pushMessage m =>
      simp only [Session.call]
      rw [EventQueue.push_rejected EventFilter.check _ m (EventFilter.check_disabled _ m rfl)]
    | pushCallback q =>
      simp only [Session.call]
      rw [EventQueue.push_rejected EventFilter.check _ q (EventFilter.check_disabled g q hg)]
    | tryResume => rfl
    | getStatus => rfl

/-- C19, with the default filters of the two tests and the calls the tests make after the
first `tryResume`: `tryResume`, then a push of `nullptr`, then `getStatus`. -/
theorem Session.null_filter_waits_witness :
    ∃ s1 : Session,
      (Session.create (Coro (MessageAwaitable {}))).tryResume = Outcome.returned true s1 ∧
      s1.getStatus = Except.ok (State.kWait, s1) ∧
      s1.calls [SessionCall.tryResume, SessionCall.pushMessage none, SessionCall.getStatus]
        = some s1 := by
  obtain ⟨s1, h1, h2, _, h4⟩ := (Session.null_filter_waits {} {} rfl rfl).1
  exact ⟨s1, h1, h2, h4 _⟩

/-- C20. Wherever a body reaches `co_await createCoro(c)`: the coroutine suspends with its
session and promise untouched (so a `kReady` state stays `kReady`), `pushCoro` is called once,
with `c`, and the next resume goes on with the rest of the body. For the session around
`co_await createCoro(c); rest`: the first `tryResume` returns true, makes exactly that one
`pushCoro` call, and leaves the status `kReady`; the next `tryResume` does what a `tryResume`
of a fresh session around `rest` does. With `rest` being `co_return` (the test) it ends
`kDone`, with no further `pushCoro` call. -/
theorem createCoro.await_contract (m_coro rest : Body) (c : Context) :
    (Body.co_await_createCoro m_coro rest).run c
      = some (Frame.awaiting createCoro.members (fun _ => rest), c) ∧
    (Body.co_await_createCoro m_coro rest).pushed c = [m_coro] ∧
    (Frame.awaiting createCoro.members (fun _ => rest)).resume c = rest.run c ∧
    (Frame.awaiting createCoro.members (fun _ => rest)).pushed c = rest.pushed c ∧
    (∃ s1 : Session,
      (Session.create (Coroutine.start (Body.co_await_createCoro m_coro rest))).tryResume
        = Outcome.returned true s1 ∧
      (Session.create (Coroutine.start (Body.co_await_createCoro m_coro rest))).pushCoroCalls
        = [Coroutine.start m_coro] ∧
      s1.getStatus = Except.ok (State.kReady, s1) ∧
      s1.tryResume = (Session.create (Coroutine.start rest)).tryResume ∧
      s1.pushCoroCalls = (Session.create (Coroutine.start rest)).pushCoroCalls) ∧
    (∃ s1 s2 : Session,
      (Session.create (CoroCreate m_coro)).tryResume = Outcome.returned true s1 ∧
      (Session.create (CoroCreate m_coro)).pushCoroCalls = [Coroutine.start m_coro] ∧
      s1.getStatus = Except.ok (State.kReady, s1) ∧
      s1.tryResume = Outcome.returned true s2 ∧
      s1.pushCoroCalls = [] ∧
      s2.getStatus = Except.ok (State.kDone, s2)) :=
  ⟨rfl, rfl, rfl, rfl, ⟨_, rfl, rfl, rfl, rfl, rfl⟩, ⟨_, _, rfl, rfl, rfl, rfl, rfl, rfl⟩⟩

/-! ### The scheduler: the ready queue -/

theorem Scheduler.addTaskToQueue_eq (s : Scheduler) (t : SessionId) :
    s.addTaskToQueue t = { s with m_tasks_queue :=
      (if t ∈ s.m_tasks_queue then s.m_tasks_queue else s.m_tasks_queue ++ [t]) } := by
  unfold Scheduler.addTaskToQueue
  split <;> rename_i h <;> simp [h]

theorem Scheduler.addTaskToQueue_nodup (s : Scheduler) (t : SessionId)
    (h : s.m_tasks_queue.Nodup) : (s.addTaskToQueue t).m_tasks_queue.Nodup := by
  rw [Scheduler.addTaskToQueue_eq]
  by_cases ht : t ∈ s.m_tasks_queue
  · simpa [ht] using h
  · simp only [ht, if_false]
    exact List.Nodup.append h (List.nodup_singleton t) (by simpa using ht)

theorem Scheduler.wake_eq (s : Scheduler) (l : List SessionId) :
    s.wake l = { s with m_tasks_queue := (s.wake l).m_tasks_queue } := by
  induction l generalizing s with
  | nil => rfl
  | cons x l ih =>
    have h : s.wake (x :: l) = (s.addTaskToQueue x).wake l := rfl
    rw [h, ih, Scheduler.addTaskToQueue_eq]

theorem Scheduler.wake_nodup (s : Scheduler) (l : List SessionId)
    (h : s.m_tasks_queue.Nodup) : (s.wake l).m_tasks_queue.Nodup := by
  induction l generalizing s with
  | nil => exact h
  | cons x l ih => exact ih _ (Scheduler.addTaskToQueue_nodup s x h)

theorem Scheduler.wake_count (s : Scheduler) (l : List SessionId) (id : SessionId)
    (hq : id ∉ s.m_tasks_queue) (hl : id ∈ l) : (s.wake l).m_tasks_queue.count id = 1 := by
  have key : ∀ (l : List SessionId) (s : Scheduler), s.m_tasks_queue.count id = 1 →
      (s.wake l).m_tasks_queue.count id = 1 := by
    intro l
    induction l with
    | nil => intro s h; exact h
    | cons x l ih =>
      intro s h
      apply ih
      rw [Scheduler.addTaskToQueue_eq]
      by_cases hx : x ∈ s.m_tasks_queue
      · simpa [hx] using h
      · have hne : x ≠ id := by
          rintro rfl
          exact hx (List.count_pos_iff.mp (by omega))
        have h0 : List.count id [x] = 0 :=
          List.count_eq_zero_of_not_mem (by simpa using Ne.symm hne)
        simp [hx, List.count_append, h, h0]
  induction l generalizing s with
  | nil => cases hl
  | cons x l ih =>
    have h : s.wake (x :: l) = (s.addTaskToQueue x).wake l := rfl
    rw [h]
    by_cases hx : x = id
    · subst hx
      apply key
      rw [Scheduler.addTaskToQueue_eq]
      simp [hq, List.count_append, List.count_eq_zero_of_not_mem hq]
    · have hl2 : id ∈ l := by
        rcases List.mem_cons.mp hl with h1 | h1
        · exact absurd h1.symm hx
        · exact h1
      apply ih _ _ hl2
      rw [Scheduler.addTaskToQueue_eq]
      by_cases hxq : x ∈ s.m_tasks_queue
      · simpa [hxq] using hq
      · simp [hxq, hq, Ne.symm hx]

/-- C13. Fan-out of `handleMessage(m)`: the message router's list holding no session twice,
every session in it whose message filter admits `m`, whose message inbox is empty and which
is not pending in the ready queue has, afterwards, exactly `m` in its message inbox and exactly
one entry in the ready queue; this for all such sessions at once, however many. -/
theorem Scheduler.handleMessage_fan_out (s : Scheduler) (m : MessagePtr)
    (hw : s.m_message_router.m_pointer = Session.message_queue_ptr)
    (hn : s.m_message_router.m_sessions.Nodup) (id : SessionId)
    (hid : id ∈ s.m_message_router.m_sessions)
    (hf : (s.session id).message_queue.getFilter.check m = true)
    (he : (s.session id).message_queue.m_queue = [])
    (hq : id ∉ s.m_tasks_queue) :
    ((s.handleMessage m).session id).message_queue.m_queue = [m] ∧
    (s.handleMessage m).m_tasks_queue.count id = 1 := by
  have hex : (s.m_message_router.route EventFilter.check m { session := s.session }).2.executed
      = [] ++ s.m_message_router.m_sessions :=
    EventRouter.foldl_deliver_executed EventFilter.check s.m_message_router.m_pointer m
      s.m_message_router.m_sessions { session := s.session }
  have hs : s.m_message_router.m_pointer.get
      ((s.m_message_router.route EventFilter.check m { session := s.session }).2.session id)
      = { s.m_message_router.m_pointer.get (s.session id) with
          m_queue := if EventFilter.check (s.m_message_router.m_pointer.get (s.session id)).m_filter m
            then (s.m_message_router.m_pointer.get (s.session id)).m_queue ++ [m]
            else (s.m_message_router.m_pointer.get (s.session id)).m_queue } := by
    show s.m_message_router.m_pointer.get ((s.m_message_router.m_sessions.foldl
      (EventRouter.deliver EventFilter.check s.m_message_router.m_pointer m)
      { session := s.session }).session id) = _
    rw [EventRouter.foldl_deliver_member EventFilter.check s.m_message_router.m_pointer m
      s.m_message_router.m_sessions { session := s.session } id hn hid,
      s.m_message_router.m_pointer.get_set, EventQueue.push_eq]
  unfold Scheduler.handleMessage
  simp only
  rw [Scheduler.wake_eq]
  constructor
  · show (((s.m_message_router.route EventFilter.check m { session := s.session }).2.session
      id).message_queue.m_queue) = [m]
    rw [hw] at hs
    have hs2 := congrArg EventQueue.m_queue hs
    simp only [Session.message_queue_ptr] at hs2
    rw [hs2]
    have hf2 : EventFilter.check (s.session id).message_queue.m_filter m = true := hf
    simp [hf2, he]
  · apply Scheduler.wake_count
    · exact hq
    · rw [hex]
      simpa using hid

/-- C13, with two sessions (scenario S1): both subscribed with an accept-all filter, empty
inboxes, empty ready queue. -/
theorem Scheduler.handleMessage_fan_out_witness :
    ((({ session := fun _ => { message_queue := { m_filter := { m_enabled := true } },
                               coro := {} },
         m_message_router := { m_sessions := [0, 1], m_pointer := Session.message_queue_ptr } } :
        Scheduler).handleMessage none).session 1).message_queue.m_queue = [none] ∧
    (({ session := fun _ => { message_queue := { m_filter := { m_enabled := true } },
                              coro := {} },
        m_message_router := { m_sessions := [0, 1], m_pointer := Session.message_queue_ptr } } :
        Scheduler).handleMessage none).m_tasks_queue.count 1 = 1 :=
  Scheduler.handleMessage_fan_out
    { session := fun _ => { message_queue := { m_filter := { m_enabled := true } },
                            coro := {} },
      m_message_router := { m_sessions := [0, 1], m_pointer := Session.message_queue_ptr } }
    none rfl (by decide) 1 (by decide) rfl rfl (by decide)

theorem Scheduler.Extends.refl (s : Scheduler) : s.Extends s :=
  ⟨rfl, rfl, rfl, ⟨[], by simp⟩, fun h => h⟩

theorem Scheduler.Extends.trans {s s1 s2 : Scheduler} (h1 : s.Extends s1) (h2 : s1.Extends s2) :
    s.Extends s2 := by
  obtain ⟨a1, b1, c1, ⟨l1, d1⟩, e1⟩ := h1
  obtain ⟨a2, b2, c2, ⟨l2, d2⟩, e2⟩ := h2
  exact ⟨a2.trans a1, b2.trans b1, c2.trans c1, ⟨l1 ++ l2, by rw [d2, d1, List.append_assoc]⟩,
    fun h => e2 (e1 h)⟩

theorem Scheduler.extends_session (s : Scheduler) (f : SessionId → Session) :
    s.Extends { s with session := f } :=
  ⟨rfl, rfl, rfl, ⟨[], by simp⟩, fun h => h⟩

theorem Scheduler.addTaskToQueue_extends (s : Scheduler) (t : SessionId) :
    s.Extends (s.addTaskToQueue t) := by
  refine ⟨?_, ?_, ?_, ⟨[], ?_⟩, Scheduler.addTaskToQueue_nodup s t⟩ <;>
    simp [Scheduler.addTaskToQueue_eq]

theorem Scheduler.pushCoro_extends (s : Scheduler) (coro : Coroutine) :
    s.Extends (s.pushCoro coro) := by
  unfold Scheduler.pushCoro
  refine Scheduler.Extends.trans ?_ (Scheduler.addTaskToQueue_extends _ _)
  exact ⟨rfl, rfl, rfl, ⟨[s.next_id], rfl⟩, fun h => h⟩

theorem Scheduler.pushCoros_extends (s : Scheduler) (coros : List Coroutine) :
    s.Extends (s.pushCoros coros) := by
  induction coros generalizing s with
  | nil => exact Scheduler.Extends.refl s
  | cons c cs ih => exact Scheduler.Extends.trans (Scheduler.pushCoro_extends s c) (ih _)

theorem Scheduler.tryResume_extends (s s1 : Scheduler) (task : SessionId) (v : Bool)
    (h : s.tryResume task = Outcome.returned v s1) : s.Extends s1 := by
  unfold Scheduler.tryResume at h
  simp only at h
  split at h
  · simp only [Outcome.returned.injEq] at h
    rw [← h.2]
    exact Scheduler.Extends.trans (Scheduler.extends_session s _)
      (Scheduler.pushCoros_extends _ _)
  · cases h
  · cases h

theorem Scheduler.drive_extends (fuel : Nat) (s s1 : Scheduler) (task : SessionId)
    (h : s.drive fuel task = some (Outcome.returned () s1)) : s.Extends s1 := by
  induction fuel generalizing s with
  | zero => simp [Scheduler.drive] at h
  | succ n ih =>
    unfold Scheduler.drive at h
    split at h
    · rename_i s2 ht
      exact Scheduler.Extends.trans (Scheduler.tryResume_extends s s2 task true ht) (ih s2 h)
    · rename_i s2 ht
      simp only [Option.some.injEq, Outcome.returned.injEq, true_and] at h
      rw [← h]
      exact Scheduler.tryResume_extends s s2 task false ht
    · simp at h
    · simp at h

theorem Scheduler.getStatus_eq (s s1 : Scheduler) (task : SessionId) (st : State)
    (h : s.getStatus task = Except.ok (st, s1)) :
    ∃ after, (s.session task).getStatus = Except.ok (st, after) ∧
      s1 = { s with session := Function.update s.session task after } := by
  unfold Scheduler.getStatus at h
  split at h
  · cases h
  · rename_i st2 after hs
    simp only [Except.ok.injEq, Prod.mk.injEq] at h
    exact ⟨after, by rw [hs, h.1], h.2.symm⟩

theorem Scheduler.updateTask_queue (s : Scheduler) (task : SessionId) :
    (s.updateTask task).m_tasks_queue = s.m_tasks_queue := rfl

theorem Scheduler.settle_queue (s s1 : Scheduler) (task : SessionId)
    (h : s.settle task = Outcome.returned () s1) : s1.m_tasks_queue = s.m_tasks_queue := by
  unfold Scheduler.settle at h
  split at h
  · cases h
  · rename_i st1 a1 h1
    obtain ⟨_, _, e1⟩ := Scheduler.getStatus_eq _ _ _ _ h1
    split at h
    · simp only [Outcome.returned.injEq, true_and] at h
      rw [← h, e1]; rfl
    · split at h
      · cases h
      · rename_i st2 a2 h2
        obtain ⟨_, _, e2⟩ := Scheduler.getStatus_eq _ _ _ _ h2
        split at h
        · simp only [Outcome.returned.injEq, true_and] at h
          rw [← h, e2, e1]; rfl
        · split at h
          · cases h
          · rename_i st3 a3 h3
            obtain ⟨_, _, e3⟩ := Scheduler.getStatus_eq _ _ _ _ h3
            split at h <;> simp only [Outcome.returned.injEq, true_and] at h <;>
              (rw [← h, e3, e2, e1]; rfl)

theorem Scheduler.processTask_nodup (fuel : Nat) (s s1 : Scheduler) (task : SessionId)
    (h : s.processTask fuel task = some (Outcome.returned () s1))
    (hn : s.m_tasks_queue.Nodup) : s1.m_tasks_queue.Nodup := by
  unfold Scheduler.processTask at h
  split at h
  · cases h
  · rename_i u s2 hd
    simp only [Option.some.injEq] at h
    rw [Scheduler.settle_queue s2 s1 task h]
    exact (Scheduler.drive_extends fuel s s2 task hd).2.2.2.2 hn
  · simp at h
  · simp at h

theorem Scheduler.call_nodup (s s1 : Scheduler) (c : SchedulerCall) (h : s.call c = some s1)
    (hn : s.m_tasks_queue.Nodup) : s1.m_tasks_queue.Nodup := by
  cases c with
  | pushCoro coro =>
    simp only [Scheduler.call, Option.some.injEq] at h
    rw [← h]
    exact (Scheduler.pushCoro_extends s coro).2.2.2.2 hn
  | execute t =>
    simp only [Scheduler.call, Option.some.injEq] at h
    rw [← h]
    exact Scheduler.addTaskToQueue_nodup s t hn
  | handleMessage m =>
    simp only [Scheduler.call, Option.some.injEq] at h
    rw [← h]
    exact Scheduler.wake_nodup _ _ hn
  | handleCallbackQuery q =>
    simp only [Scheduler.call, Option.some.injEq] at h
    rw [← h]
    exact Scheduler.wake_nodup _ _ hn
  | handleTimerEvent now e =>
    simp only [Scheduler.call, Option.some.injEq] at h
    rw [← h]
    exact Scheduler.wake_nodup _ _ hn
  | handleEditedMessage =>
    simp only [Scheduler.call, Option.some.injEq] at h
    rw [← h]
    exact Scheduler.wake_nodup _ _ hn
  | thread fuel =>
    simp only [Scheduler.call] at h
    split at h
    · rename_i u s2 ht
      simp only [Option.some.injEq] at h
      subst h
      unfold Scheduler.thread at ht
      split at ht
      · simp only [Option.some.injEq, Outcome.returned.injEq, true_and] at ht
        rw [← ht]; exact hn
      · rename_i t rest hq
        rw [hq] at hn
        exact Scheduler.processTask_nodup fuel _ _ t ht (List.nodup_cons.mp hn).2
    · cases h

theorem Scheduler.calls_nodup (cs : List SchedulerCall) (s s1 : Scheduler)
    (h : s.calls cs = some s1) (hn : s.m_tasks_queue.Nodup) : s1.m_tasks_queue.Nodup := by
  induction cs generalizing s with
  | nil =>
    simp only [Scheduler.calls, Option.some.injEq] at h
    rw [← h]; exact hn
  | cons c cs ih =>
    simp only [Scheduler.calls] at h
    split at h
    · cases h
    · rename_i s2 hc
      exact ih s2 h (Scheduler.call_nodup s s2 c hc hn)

/-- C14. `addTaskToQueue` on a session that is pending leaves the scheduler as it is, on a
session that is not pending it appends the session at the back of the ready queue; a worker
round takes the session at the front; and in every state reached from a new scheduler through
`pushCoro`, the `handle` members, `execute` calls and worker rounds, the ready queue holds no
session twice. -/
theorem Scheduler.ready_queue_contract :
    (∀ (s : Scheduler) (task : SessionId), task ∈ s.m_tasks_queue → s.addTaskToQueue task = s) ∧
    (∀ (s : Scheduler) (task : SessionId), task ∉ s.m_tasks_queue →
      s.addTaskToQueue task = { s with m_tasks_queue := s.m_tasks_queue ++ [task] }) ∧
    (∀ (fuel : Nat) (s : Scheduler) (task : SessionId) (rest : List SessionId),
      s.m_tasks_queue = task :: rest →
        s.thread fuel = ({ s with m_tasks_queue := rest }).processTask fuel task) ∧
    (∀ (cs : List SchedulerCall) (s : Scheduler),
      Scheduler.new.calls cs = some s → s.m_tasks_queue.Nodup) := by
  refine ⟨?_, ?_, ?_, ?_⟩
  · intro s task h
    simp [Scheduler.addTaskToQueue, h]
  · intro s task h
    simp [Scheduler.addTaskToQueue, h]
  · intro fuel s task rest h
    simp [Scheduler.thread, h]
  · intro cs s h
    exact Scheduler.calls_nodup cs Scheduler.new s h List.nodup_nil

/-- C14, on a run: two coroutines pushed, a placeholder handler waking both again, one worker
round. -/
theorem Scheduler.ready_queue_contract_witness :
    ∃ s : Scheduler,
      Scheduler.new.calls
        [SchedulerCall.pushCoro (Coro (MessageAwaitable { m_enabled := true })),
         SchedulerCall.pushCoro (Coroutine.start TestCoro),
         SchedulerCall.handleEditedMessage,
         SchedulerCall.thread 3] = some s ∧
      s.m_tasks_queue.Nodup := by
  have hsome : (Scheduler.new.calls
        [SchedulerCall.pushCoro (Coro (MessageAwaitable { m_enabled := true })),
         SchedulerCall.pushCoro (Coroutine.start TestCoro),
         SchedulerCall.handleEditedMessage,
         SchedulerCall.thread 3]).isSome = true := rfl
  obtain ⟨s, hs⟩ := Option.isSome_iff_exists.mp hsome
  exact ⟨s, hs, Scheduler.ready_queue_contract.2.2.2 _ s hs⟩

/-! ### The scheduler: `processTask` -/

/-- C16, on the code: a coroutine whose body throws is pushed to a new scheduler, next to a
second coroutine, and a worker round takes it. The exception leaves `processTask` and the
thread function (neither has a handler), so the round does not come back; at that point the
session is still in the session list and nothing has removed it. -/
theorem Scheduler.processTask_lets_exception_out :
    ∃ s1 : Scheduler,
      ((Scheduler.new.pushCoro (Coroutine.start (Body.throw { what := "boom" }))).pushCoro
          (Coroutine.start TestCoro)).thread 3
        = some (Outcome.threw { what := "boom" } s1) ∧
      0 ∈ s1.m_sessions ∧
      (s1.session 0).getStatus = Except.ok (State.kException, s1.session 0) ∧
      s1.m_tasks_queue = [1] ∧
      (((Scheduler.new.pushCoro (Coroutine.start (Body.throw { what := "boom" }))).pushCoro
          (Coroutine.start TestCoro)).call (SchedulerCall.thread 3)).isNone = true :=
  ⟨_, rfl, by decide, rfl, rfl, rfl⟩

/-! ### The invariant of the promise -/

theorem promise_type.updateState_keeps {ε : Type} (env : ε) (p : promise_type ε)
    (h : p.WaitHasCondition) :
    ∃ p1, p.updateState env = Except.ok p1 ∧ p1.WaitHasCondition := by
  by_cases hw : p.m_state = State.kWait
  · have hc := h hw
    rcases p with ⟨cond, ab, ex, st⟩
    simp only at hw hc
    subst hw
    cases cond with
    | none => simp at hc
    | some c =>
      have hf : fires (some c) env = c env := rfl
      by_cases h1 : c env = true <;> by_cases h2 : fires ab env = true <;>
        simp [promise_type.updateState, hf, h1, h2, promise_type.WaitHasCondition]
  · exact ⟨p, by simp [promise_type.updateState, hw], h⟩

theorem promise_type.final_suspend_keeps {ε : Type} (p : promise_type ε) :
    p.final_suspend.WaitHasCondition := by
  unfold promise_type.final_suspend promise_type.WaitHasCondition
  split
  · intro h; cases h
  · rename_i hne
    simp only [ne_eq, Decidable.not_not] at hne
    intro h
    rw [hne] at h
    cases h

theorem Coroutine.getState_keeps (env : Inboxes) (co : Coroutine) (h : co.WaitHasCondition) :
    ∃ st co1, co.getState env = Except.ok (st, co1) ∧ co1.WaitHasCondition ∧
      (∀ h1, co1.coro = some h1 → h1.promise.m_state = st) := by
  unfold Coroutine.getState
  cases hc : co.coro with
  | none =>
    refine ⟨State.kNull, co, rfl, h, ?_⟩
    intro h1 hh
    rw [hc] at hh
    cases hh
  | some hd =>
    obtain ⟨hp, hf⟩ := h hd hc
    obtain ⟨p1, hu, hk⟩ := promise_type.updateState_keeps env hd.promise hp
    refine ⟨p1.m_state, { coro := some { hd with promise := p1 } }, ?_, ?_, ?_⟩
    · simp [promise_type.getState, hu]
    · intro h1 hh
      simp only [Coroutine.mk.injEq, Option.some.injEq] at hh
      rw [← hh]
      exact ⟨hk, hf⟩
    · intro h1 hh
      simp only [Coroutine.mk.injEq, Option.some.injEq] at hh
      rw [← hh]

theorem Body.run_keeps (b : Body) : b.KeepsCondition → ∀ c fr c1,
    c.promise.WaitHasCondition → b.run c = some (fr, c1) →
      c1.promise.WaitHasCondition ∧ fr.KeepsCondition := by
  induction b with
  | co_return =>
    intro _ c fr c1 _ h
    simp only [Body.run, Option.some.injEq, Prod.mk.injEq] at h
    rw [← h.1, ← h.2]
    exact ⟨promise_type.final_suspend_keeps _, trivial⟩
  | throw e =>
    intro _ c fr c1 _ h
    simp only [Body.run, Option.some.injEq, Prod.mk.injEq] at h
    rw [← h.1, ← h.2]
    exact ⟨promise_type.final_suspend_keeps _, trivial⟩
  | co_await a rest ih =>
    intro hk c fr c1 hc h
    simp only [Body.run] at h
    split at h
    · split at h
      · cases h
      · rename_i r c2 hr
        exact ih r (hk.2 r) c2 fr c1 (hk.1.2 false c c2 r hc hr) h
    · simp only [Option.some.injEq, Prod.mk.injEq] at h
      rw [← h.1, ← h.2]
      exact ⟨hk.1.1 c hc, hk⟩
  | co_await_createCoro m rest _ ih =>
    intro hk c fr c1 hc h
    simp only [Body.run, createCoro.members, Bool.false_eq_true, if_false, Option.some.injEq,
      Prod.mk.injEq] at h
    rw [← h.1, ← h.2]
    refine ⟨hc, ⟨fun c hc => hc, ?_⟩, fun _ => hk⟩
    intro b c c1 r hc hr
    simp only [Option.some.injEq, Prod.mk.injEq] at hr
    rw [← hr.2]
    exact hc
  | loop a never_ready again rest _ =>
    intro hk c fr c1 hc h
    simp only [Body.run, Option.some.injEq, Prod.mk.injEq] at h
    rw [← h.1, ← h.2]
    refine ⟨hk.1.1 c hc, hk.1, ?_⟩
    intro r
    show (if again r = true then Body.loop a never_ready again rest else rest).KeepsCondition
    cases again r
    · exact hk.2
    · exact hk
  | co_await_createCoro_forever m _ =>
    intro _ c fr c1 hc h
    simp only [Body.run, createCoro.members, Option.some.injEq, Prod.mk.injEq] at h
    rw [← h.1, ← h.2]
    refine ⟨hc, ⟨fun c hc => hc, ?_⟩, fun _ => trivial⟩
    intro b c c1 r hc hr
    simp only [Option.some.injEq, Prod.mk.injEq] at hr
    rw [← hr.2]
    exact hc

theorem Frame.frame_resume_keeps (fr : Frame) (hk : fr.KeepsCondition) (c : Context) (fr1 : Frame)
    (c1 : Context) (hc : c.promise.WaitHasCondition) (h : fr.resume c = some (fr1, c1)) :
    c1.promise.WaitHasCondition ∧ fr1.KeepsCondition := by
  cases fr with
  | initial body => exact Body.run_keeps body hk c fr1 c1 hc h
  | awaiting a rest =>
    simp only [Frame.resume] at h
    split at h
    · cases h
    · rename_i r c2 hr
      exact Body.run_keeps (rest r) (hk.2 r) c2 fr1 c1 (hk.1.2 true c c2 r hc hr) h
  | final => simp [Frame.resume] at h

theorem Coroutine.resume_keeps (env env2 : Inboxes) (co co2 : Coroutine)
    (h : co.WaitHasCondition) (hr : co.resume env = some (env2, co2)) :
    co2.WaitHasCondition := by
  unfold Coroutine.resume at hr
  cases hc : co.coro with
  | none => rw [hc] at hr; cases hr
  | some hd =>
    rw [hc] at hr
    simp only at hr
    cases hf : hd.frame.resume { toInboxes := env, promise := hd.promise } with
    | none => rw [hf] at hr; cases hr
    | some r =>
      obtain ⟨fr, c⟩ := r
      rw [hf] at hr
      simp only [Option.some.injEq, Prod.mk.injEq] at hr
      obtain ⟨hp, hk⟩ := h hd hc
      have := Frame.frame_resume_keeps hd.frame hk _ fr c hp hf
      intro h1 hh
      rw [← hr.2] at hh
      simp only [Coroutine.mk.injEq, Option.some.injEq] at hh
      rw [← hh]
      exact this

theorem Coroutine.tryResume_keeps (env : Inboxes) (co : Coroutine) (h : co.WaitHasCondition) :
    (∀ v env1 co1, co.tryResume env = Outcome.returned v (env1, co1) → co1.WaitHasCondition) ∧
    (∀ e env1 co1, co.tryResume env = Outcome.threw e (env1, co1) →
      co1.WaitHasCondition ∧
      ∃ h1, co1.coro = some h1 ∧ h1.promise.m_state = State.kException ∧
        h1.promise.m_exception = some e) := by
  obtain ⟨st, co1, hg, hk1, _⟩ := Coroutine.getState_keeps env co h
  unfold Coroutine.tryResume
  rw [hg]
  cases st with
  | kNull => simp only; exact ⟨(by intro v e1 c1 hh; cases hh; exact hk1), (by intro e e1 c1 hh; cases hh)⟩
  | kDone => simp only; exact ⟨(by intro v e1 c1 hh; cases hh; exact hk1), (by intro e e1 c1 hh; cases hh)⟩
  | kException =>
    simp only; exact ⟨(by intro v e1 c1 hh; cases hh; exact hk1), (by intro e e1 c1 hh; cases hh)⟩
  | kWait => simp only; exact ⟨(by intro v e1 c1 hh; cases hh; exact hk1), (by intro e e1 c1 hh; cases hh)⟩
  | kReady =>
    simp only
    cases hr : co1.resume env with
    | none => simp only; exact ⟨(by intro v e1 c1 hh; cases hh), (by intro e e1 c1 hh; cases hh)⟩
    | some r =>
      obtain ⟨env2, co2⟩ := r
      simp only
      have hk2 := Coroutine.resume_keeps env env2 co1 co2 hk1 hr
      obtain ⟨st2, co3, hg2, hk3, hst3⟩ := Coroutine.getState_keeps env2 co2 hk2
      rw [hg2]
      simp only
      by_cases hx : st2 = State.kException
      · simp only [hx, if_true]
        cases hm : co3.coro.bind (fun h => h.promise.m_exception) with
        | none => simp only; exact ⟨(by intro v e1 c1 hh; cases hh), (by intro e e1 c1 hh; cases hh)⟩
        | some e0 =>
          simp only
          refine ⟨(by intro v e1 c1 hh; cases hh), ?_⟩
          intro e e1 c1 hh
          simp only [Outcome.threw.injEq, Prod.mk.injEq] at hh
          obtain ⟨he, _, hc⟩ := hh
          subst he hc
          refine ⟨hk3, ?_⟩
          cases hc3 : co3.coro with
          | none => rw [hc3] at hm; cases hm
          | some h3 =>
            rw [hc3] at hm
            simp only [Option.some_bind] at hm
            exact ⟨h3, rfl, (hst3 h3 hc3).trans hx, hm⟩
      · simp only [hx, if_false]
        refine ⟨?_, (by intro e e1 c1 hh; cases hh)⟩
        intro v e1 c1 hh
        simp only [Outcome.returned.injEq, Prod.mk.injEq] at hh
        rw [← hh.2.2]
        exact hk3

theorem MessageAwaitable.message_keeps (f : EventFilter MessagePtr) :
    (MessageAwaitable f).KeepsCondition := by
  constructor
  · intro c _ _
    rfl
  · intro b c c1 r hc hr
    simp only [MessageAwaitable] at hr
    split at hr
    · cases hr
    · split at hr
      · cases hr
      · simp only [Option.some.injEq, Prod.mk.injEq] at hr
        rw [← hr.2]
        exact hc

theorem CBQueryAwaitable.cbquery_keeps (g : EventFilter CallbackQueryPtr) :
    (CBQueryAwaitable g).KeepsCondition := by
  constructor
  · intro c _ _
    rfl
  · intro b c c1 r hc hr
    simp only [CBQueryAwaitable] at hr
    split at hr
    · cases hr
    · split at hr
      · cases hr
      · simp only [Option.some.injEq, Prod.mk.injEq] at hr
        rw [← hr.2]
        exact hc

theorem promise_type.updateState_error {ε : Type} (env : ε) (p : promise_type ε) :
    (∃ e, p.updateState env = Except.error e) ↔ ¬ p.WaitHasCondition := by
  constructor
  · rintro ⟨e, he⟩ hk
    obtain ⟨p1, h1, _⟩ := promise_type.updateState_keeps env p hk
    rw [h1] at he
    cases he
  · intro hk
    unfold promise_type.WaitHasCondition at hk
    simp only [Classical.not_imp, Bool.not_eq_true, Option.not_isSome,
      Option.isNone_iff_eq_none] at hk
    exact ⟨sleepsWithoutCondition, by simp [promise_type.updateState, hk.1, hk.2]⟩

/-! ### `Coroutine::tryResume` -/

theorem Coroutine.getState_error (env : Inboxes) (co : Coroutine) :
    (∀ e, co.getState env = Except.error e → e = sleepsWithoutCondition) ∧
    ((∃ e, co.getState env = Except.error e) ↔
      ∃ h, co.coro = some h ∧ h.promise.m_state = State.kWait ∧ h.promise.m_condition = none) := by
  unfold Coroutine.getState
  cases hc : co.coro with
  | none => simp
  | some h =>
    simp only [promise_type.getState, Option.some.injEq, exists_eq_left']
    by_cases hw : h.promise.m_state = State.kWait
    · cases hn : h.promise.m_condition with
      | none => simp [promise_type.updateState, hw, hn]
      | some c =>
        constructor
        · intro e he
          simp [promise_type.updateState, hw, hn] at he
        · simp [promise_type.updateState, hw, hn]
    · simp [promise_type.updateState, hw]

theorem Coroutine.getState_frame (env : Inboxes) (co co1 : Coroutine) (st : State)
    (h : co.getState env = Except.ok (st, co1)) :
    co1.coro.map Handle.frame = co.coro.map Handle.frame := by
  unfold Coroutine.getState at h
  cases hc : co.coro with
  | none =>
    rw [hc] at h
    simp only [Except.ok.injEq, Prod.mk.injEq] at h
    rw [← h.2, hc]
  | some hd =>
    rw [hc] at h
    simp only at h
    cases hp : hd.promise.getState env with
    | error e => rw [hp] at h; cases h
    | ok r =>
      obtain ⟨st1, p⟩ := r
      rw [hp] at h
      simp only [Except.ok.injEq, Prod.mk.injEq] at h
      rw [← h.2]
      rfl

/-- C7, as the code has it. `tryResume` first refreshes the state. A refresh throws exactly on a
coroutine in `kWait` whose resume condition is empty; when the first refresh throws, that error
leaves `tryResume` and nothing of the body has run. When the refreshed state is not `kReady`,
`tryResume` returns false, and nothing but that refresh happened: queues and frame are as
before. When it is `kReady` the coroutine is resumed once and the state refreshed again: if
that second refresh throws (the body has suspended with an empty resume condition), the error
leaves `tryResume`; if the state so reached is `kException`, the stored exception is thrown;
otherwise `tryResume` returns true; the second refresh runs nothing of the body either.
Neither refresh throws for a coroutine that satisfies the invariant of the promise and whose
awaitables keep it. `Session::tryResume` forwards to it. -/
theorem Coroutine.tryResume_contract (env : Inboxes) (co : Coroutine) :
    (∀ (env1 : Inboxes) (c : Coroutine),
      (∀ e, c.getState env1 = Except.error e → e = sleepsWithoutCondition) ∧
      ((∃ e, c.getState env1 = Except.error e) ↔
        ∃ h, c.coro = some h ∧ h.promise.m_state = State.kWait ∧
          h.promise.m_condition = none)) ∧
    (∀ e, co.getState env = Except.error e → co.tryResume env = Outcome.threw e (env, co)) ∧
    (∀ st co1, co.getState env = Except.ok (st, co1) →
      (st ≠ State.kReady →
        co.tryResume env = Outcome.returned false (env, co1) ∧
        co1.coro.map Handle.frame = co.coro.map Handle.frame ∧
        (∀ s : Session, s.coro = co → s.toInboxes = env →
          s.tryResume = Outcome.returned false { s with coro := co1 })) ∧
      (st = State.kReady →
        (co1.resume env = none → co.tryResume env = Outcome.aborted) ∧
        ∀ env2 co2, co1.resume env = some (env2, co2) →
          (∀ e, co2.getState env2 = Except.error e →
            co.tryResume env = Outcome.threw e (env2, co2)) ∧
          (∀ st2 co3, co2.getState env2 = Except.ok (st2, co3) →
            co3.coro.map Handle.frame = co2.coro.map Handle.frame ∧
            (st2 ≠ State.kException → co.tryResume env = Outcome.returned true (env2, co3)) ∧
            (st2 = State.kException →
              ∀ e, co3.coro.bind (fun h => h.promise.m_exception) = some e →
                co.tryResume env = Outcome.threw e (env2, co3))))) ∧
    (co.WaitHasCondition →
      (∃ st co1, co.getState env = Except.ok (st, co1)) ∧
      (∀ co1 env2 co2, co.getState env = Except.ok (State.kReady, co1) →
        co1.resume env = some (env2, co2) →
        ∃ st2 co3, co2.getState env2 = Except.ok (st2, co3))) := by
  refine ⟨fun env1 c => Coroutine.getState_error env1 c, ?_, ?_, ?_⟩
  · intro e he
    unfold Coroutine.tryResume
    rw [he]
  rotate_left
  · intro hk
    obtain ⟨st, co1, hg, hk1, _⟩ := Coroutine.getState_keeps env co hk
    refine ⟨⟨st, co1, hg⟩, ?_⟩
    intro co1a env2 co2 hga hr
    rw [hg] at hga
    simp only [Except.ok.injEq, Prod.mk.injEq] at hga
    rw [← hga.2] at hr
    obtain ⟨st2, co3, hg2, _, _⟩ :=
      Coroutine.getState_keeps env2 co2 (Coroutine.resume_keeps env env2 co1 co2 hk1 hr)
    exact ⟨st2, co3, hg2⟩
  intro st co1 h
  constructor
  · intro hst
    have ht : co.tryResume env = Outcome.returned false (env, co1) := by
      unfold Coroutine.tryResume
      rw [h]
      cases st <;> first | rfl | exact absurd rfl hst
    refine ⟨ht, Coroutine.getState_frame env co co1 st h, ?_⟩
    · intro s hs he
      subst hs he
      unfold Session.tryResume
      rw [ht]
  · intro hst
    subst hst
    constructor
    · intro hr
      unfold Coroutine.tryResume
      rw [h]
      simp only [hr]
    intro env2 co2 hr
    constructor
    · intro e hg
      unfold Coroutine.tryResume
      rw [h]
      simp only [hr, hg]
    intro st2 co3 hg
    refine ⟨Coroutine.getState_frame env2 co2 co3 st2 hg, ?_, ?_⟩
    · intro hne
      unfold Coroutine.tryResume
      rw [h]
      simp only [hr, hg, if_neg hne]
    · intro heq e hex
      unfold Coroutine.tryResume
      rw [h]
      simp only [hr, hg, heq, hex, if_true]

/-- C7, at concrete coroutines: the null coroutine is not resumed; a fresh coroutine awaiting
a message is resumed once and `tryResume` returns true; a fresh coroutine whose body throws has
its exception rethrown; a coroutine in `kWait` without a resume condition makes the refresh,
and with it `tryResume`, throw. -/
theorem Coroutine.tryResume_contract_witness :
    ({} : Coroutine).tryResume {} = Outcome.returned false ({}, {}) ∧
    (∃ r, (Coro (MessageAwaitable { m_enabled := true })).tryResume {}
      = Outcome.returned true r) ∧
    (∃ r, (Coroutine.start (Body.throw { what := "boom" })).tryResume {}
      = Outcome.threw { what := "boom" } r) ∧
    (∃ r, ({ coro := some { promise := ({} : promise_type Inboxes).initial_suspend.pause none,
                            frame := Frame.final } } : Coroutine).tryResume {}
      = Outcome.threw sleepsWithoutCondition r) :=
  ⟨(((Coroutine.tryResume_contract {} {}).2.2.1 State.kNull {} rfl).1 (by decide)).1,
   ⟨_, (((((Coroutine.tryResume_contract {} (Coro (MessageAwaitable { m_enabled := true }))).2.2.1
      State.kReady _ rfl).2 rfl).2 _ _ rfl).2 State.kWait _ rfl).2.1 (by decide)⟩,
   ⟨_, (((((Coroutine.tryResume_contract {}
      (Coroutine.start (Body.throw { what := "boom" }))).2.2.1
      State.kReady _ rfl).2 rfl).2 _ _ rfl).2 State.kException _ rfl).2.2 rfl _ rfl⟩,
   ⟨_, (Coroutine.tryResume_contract {}
      ({ coro := some { promise := ({} : promise_type Inboxes).initial_suspend.pause none,
                        frame := Frame.final } } : Coroutine)).2.1 _ rfl⟩⟩

/-- C7 fails as stated: the coroutine of the awaitable tests around an awaitable that pauses
with an empty function. The refreshed state is `kReady`, the body is resumed once and suspends
in `kWait` with no exception stored, and `tryResume` neither returns true nor rethrows a stored
exception: the second refresh throws. On the coroutine so left the first refresh throws, so
`tryResume` does not return false either. -/
theorem Coroutine.tryResume_counterexample :
    ∃ (co1 : Coroutine) (env2 : Inboxes) (co2 : Coroutine) (h2 : Handle),
      (Coro EmptyPauseAwaitable).getState {} = Except.ok (State.kReady, co1) ∧
      co1.resume {} = some (env2, co2) ∧
      co2.coro = some h2 ∧
      h2.promise.m_state = State.kWait ∧
      h2.promise.m_exception = none ∧
      (Coro EmptyPauseAwaitable).tryResume {}
        = Outcome.threw sleepsWithoutCondition (env2, co2) ∧
      co2.tryResume env2 = Outcome.threw sleepsWithoutCondition (env2, co2) :=
  ⟨_, _, _, _, rfl, rfl, rfl, rfl, rfl, rfl, rfl⟩

/-- C21, as the code has it. The invariant (a promise in `kWait` has a resume condition) holds
after creation; both `pause` overloads establish it when the resume condition passed is not
empty; `updateState` keeps it, and under it the refresh does not throw (it throws exactly when
the invariant fails); `tryResume` keeps it for a coroutine whose remaining awaitables keep it,
as `MessageAwaitable`, `CBQueryAwaitable` and `createCoro` do, and then the only thing
`tryResume` throws is the stored exception of a coroutine in `kException`. Either overload
called with an empty function leaves the promise in `kWait` without a resume condition, and
the next refresh throws. -/
theorem promise_type.wait_condition_contract {ε : Type} (env : ε) (p : promise_type ε) :
    ({} : promise_type ε).initial_suspend.WaitHasCondition ∧
    (∀ c, (p.pause (some c)).WaitHasCondition) ∧
    (∀ c a, (p.pause2 (some c) a).WaitHasCondition) ∧
    (p.WaitHasCondition → ∃ p1, p.updateState env = Except.ok p1 ∧ p1.WaitHasCondition) ∧
    ((∃ e, p.updateState env = Except.error e) ↔ ¬ p.WaitHasCondition) ∧
    (∀ body : Body, body.KeepsCondition → (Coroutine.start body).WaitHasCondition) ∧
    (∀ (i : Inboxes) (co : Coroutine), co.WaitHasCondition →
      (∀ v i1 co1, co.tryResume i = Outcome.returned v (i1, co1) → co1.WaitHasCondition) ∧
      (∀ e i1 co1, co.tryResume i = Outcome.threw e (i1, co1) →
        co1.WaitHasCondition ∧
        ∃ h1, co1.coro = some h1 ∧ h1.promise.m_state = State.kException ∧
          h1.promise.m_exception = some e)) ∧
    (∀ f, (MessageAwaitable f).KeepsCondition) ∧
    (∀ g, (CBQueryAwaitable g).KeepsCondition) ∧
    createCoro.members.KeepsCondition ∧
    ¬ (p.pause none).WaitHasCondition ∧
    (∀ a, ¬ (p.pause2 none a).WaitHasCondition) ∧
    (p.pause none).updateState env = Except.error sleepsWithoutCondition := by
  refine ⟨?_, ?_, ?_, promise_type.updateState_keeps env p, promise_type.updateState_error env p,
    ?_, fun i co h => Coroutine.tryResume_keeps i co h, MessageAwaitable.message_keeps,
    CBQueryAwaitable.cbquery_keeps, ?_, ?_, ?_, ?_⟩
  · intro h; cases h
  · intro c _; rfl
  · intro c a _; rfl
  · intro body hb h hh
    simp only [Coroutine.start, Coroutine.mk.injEq, Option.some.injEq] at hh
    rw [← hh]
    exact ⟨(by intro h; cases h), hb⟩
  · refine ⟨fun c hc => hc, ?_⟩
    intro b c c1 r hc hr
    simp only [createCoro.members, Option.some.injEq, Prod.mk.injEq] at hr
    rw [← hr.2]
    exact hc
  · intro h
    have := h rfl
    simp [promise_type.pause] at this
  · intro a h
    have := h rfl
    simp [promise_type.pause2] at this
  · simp [promise_type.updateState, promise_type.pause]

/-- C21, at concrete promises and coroutines: a promise paused on a condition refreshes
without throwing, and the coroutine of the message test keeps the invariant through
`tryResume`. -/
theorem promise_type.wait_condition_contract_witness :
    (∃ p1, (({} : promise_type Nat).initial_suspend.pause
        (some (fun n => decide (0 < n)))).updateState 3 = Except.ok p1 ∧
      p1.WaitHasCondition) ∧
    (∃ i1 co1, (Coro (MessageAwaitable { m_enabled := true })).tryResume {}
        = Outcome.returned true (i1, co1) ∧ co1.WaitHasCondition) := by
  have h := promise_type.wait_condition_contract 3
    (({} : promise_type Nat).initial_suspend.pause (some (fun n => decide (0 < n))))
  refine ⟨h.2.2.2.1 (h.2.1 _), ?_⟩
  have hc : (Coro (MessageAwaitable { m_enabled := true })).WaitHasCondition :=
    h.2.2.2.2.2.1 _ ⟨h.2.2.2.2.2.2.2.1 _, fun _ => trivial⟩
  have ht : ∃ i1 co1, (Coro (MessageAwaitable { m_enabled := true })).tryResume {}
      = Outcome.returned true (i1, co1) := ⟨_, _, rfl⟩
  obtain ⟨i1, co1, hr⟩ := ht
  exact ⟨i1, co1, hr, (h.2.2.2.2.2.2.1 {} _ hc).1 true i1 co1 hr⟩

/-- C21 fails as stated: `pause` accepts an empty function. After creation and one
`pause({})` the promise is in `kWait` without a resume condition and the refresh throws; and a
coroutine whose awaitable suspends that way makes `tryResume` throw that error. -/
theorem promise_type.wait_condition_counterexample :
    (({} : promise_type Unit).initial_suspend.pause none).m_state = State.kWait ∧
    (({} : promise_type Unit).initial_suspend.pause none).m_condition.isNone = true ∧
    (({} : promise_type Unit).initial_suspend.pause none).updateState ()
      = Except.error sleepsWithoutCondition ∧
    (∃ r, (Coro EmptyPauseAwaitable).tryResume {} = Outcome.threw sleepsWithoutCondition r) :=
  ⟨rfl, rfl, rfl, _, rfl⟩

/-! ### The router's list holds no session twice -/

theorem EventRouter.remove_nodup {F T : Type} (r : EventRouter F T) (s : SessionId)
    (h : r.m_sessions.Nodup) : (r.remove s).m_sessions.Nodup :=
  List.Nodup.filter _ h

theorem EventRouter.update_nodup {F T : Type} (enabled : F → Bool) (r : EventRouter F T)
    (s : SessionId) (w : World) (h : r.m_sessions.Nodup) :
    (r.update enabled s w).1.m_sessions.Nodup := by
  unfold EventRouter.update
  simp only
  split
  · exact h
  · split
    · simp only
      refine List.Nodup.append (EventRouter.remove_nodup r s h) (List.nodup_singleton s) ?_
      simp [EventRouter.remove]
    · exact EventRouter.remove_nodup r s h

theorem EventRouter.router_call_nodup {F T : Type} (check : F → T → Bool) (enabled : F → Bool)
    (r : EventRouter F T) (c : RouterCall T) (h : r.m_sessions.Nodup) :
    (r.call check enabled c).m_sessions.Nodup := by
  cases c with
  | update s w => exact EventRouter.update_nodup enabled r s w h
  | remove s => exact EventRouter.remove_nodup r s h
  | route m w => exact h

theorem EventRouter.router_calls_nodup {F T : Type} (check : F → T → Bool) (enabled : F → Bool)
    (cs : List (RouterCall T)) (r : EventRouter F T) (h : r.m_sessions.Nodup) :
    (r.calls check enabled cs).m_sessions.Nodup := by
  induction cs generalizing r with
  | nil => exact h
  | cons c cs ih => exact ih _ (EventRouter.router_call_nodup check enabled r c h)

/-- C22. Starting from an empty router, every sequence of `update`, `remove` and `route`
calls leaves a list that holds no session twice; and `remove(s)` leaves no occurrence of `s`,
keeps every other session as often as it was there, and keeps the remaining entries in their
order (the result is the old list with entries struck out). -/
theorem EventRouter.no_duplicates {F T : Type} (check : F → T → Bool) (enabled : F → Bool)
    (m_pointer : QueueMember F T) (r : EventRouter F T) (s : SessionId) :
    (∀ cs : List (RouterCall T),
      (({ m_pointer := m_pointer } : EventRouter F T).calls check enabled cs).m_sessions.Nodup) ∧
    s ∉ (r.remove s).m_sessions ∧
    (∀ t, t ≠ s → (t ∈ (r.remove s).m_sessions ↔ t ∈ r.m_sessions)) ∧
    (∀ t, t ≠ s → (r.remove s).m_sessions.count t = r.m_sessions.count t) ∧
    (r.remove s).m_sessions.Sublist r.m_sessions ∧
    (r.remove s).m_pointer = r.m_pointer := by
  refine ⟨fun cs => EventRouter.router_calls_nodup check enabled cs _ List.nodup_nil, ?_, ?_, ?_,
    ?_, rfl⟩
  · simp [EventRouter.remove]
  · intro t ht
    simp [EventRouter.remove, ht]
  · intro t ht
    simp only [EventRouter.remove]
    rw [List.count_filter]
    simp [ht]
  · exact List.filter_sublist _

/-- C22, on a message router: a run of calls from the empty router, and the removal of
session `1` from `[0, 1, 2]`, which keeps `2`. -/
theorem EventRouter.no_duplicates_witness :
    (({ m_pointer := Session.message_queue_ptr } :
        EventRouter (EventFilter MessagePtr) MessagePtr).calls EventFilter.check
        EventFilter.m_enabled
        [RouterCall.update 0 { session := fun _ => Session.create (Coroutine.start TestCoro) },
         RouterCall.update 0 { session := fun _ => Session.create (Coroutine.start TestCoro) },
         RouterCall.route none { session := fun _ => Session.create (Coroutine.start TestCoro) },
         RouterCall.remove 3]).m_sessions.Nodup ∧
    (2 ∈ (({ m_sessions := [0, 1, 2], m_pointer := Session.message_queue_ptr } :
        EventRouter (EventFilter MessagePtr) MessagePtr).remove 1).m_sessions) := by
  constructor
  · exact (EventRouter.no_duplicates EventFilter.check EventFilter.m_enabled
      Session.message_queue_ptr { m_pointer := Session.message_queue_ptr } 0).1 _
  · exact ((EventRouter.no_duplicates EventFilter.check EventFilter.m_enabled
      Session.message_queue_ptr
      ({ m_sessions := [0, 1, 2], m_pointer := Session.message_queue_ptr } :
        EventRouter (EventFilter MessagePtr) MessagePtr) 1).2.2.1 2 (by decide)).2 (by decide)

/-! ### The handlers with a commented-out push -/

theorem Scheduler.wake_added (l : List SessionId) (s : Scheduler) :
    ∃ added, (s.wake l).m_tasks_queue = s.m_tasks_queue ++ added ∧ added.Nodup ∧
      ∀ t, t ∈ added ↔ (t ∈ l ∧ t ∉ s.m_tasks_queue) := by
  induction l generalizing s with
  | nil => exact ⟨[], by simp [Scheduler.wake], List.nodup_nil, by simp⟩
  | cons x l ih =>
    have hw : s.wake (x :: l) = (s.addTaskToQueue x).wake l := rfl
    obtain ⟨added1, h1, h2, h3⟩ := ih (s.addTaskToQueue x)
    rw [hw, h1]
    rw [Scheduler.addTaskToQueue_eq] at h3 ⊢
    by_cases hx : x ∈ s.m_tasks_queue
    · simp only [hx, if_true] at h3 ⊢
      refine ⟨added1, rfl, h2, ?_⟩
      intro t
      rw [h3 t]
      constructor
      · rintro ⟨a, b⟩
        exact ⟨List.mem_cons_of_mem _ a, b⟩
      · rintro ⟨a, b⟩
        rcases List.mem_cons.mp a with rfl | a
        · exact absurd hx b
        · exact ⟨a, b⟩
    · simp only [hx, if_false] at h3 ⊢
      refine ⟨x :: added1, by simp, ?_, ?_⟩
      · refine List.nodup_cons.mpr ⟨?_, h2⟩
        intro hin
        exact ((h3 x).mp hin).2 (by simp)
      · intro t
        rw [List.mem_cons, h3 t, List.mem_cons, List.mem_append, List.mem_singleton, not_or]
        constructor
        · rintro (rfl | ⟨a, b, _⟩)
          · exact ⟨Or.inl rfl, hx⟩
          · exact ⟨Or.inr a, b⟩
        · rintro ⟨rfl | a, b⟩
          · exact Or.inl rfl
          · by_cases htx : t = x
            · exact Or.inl htx
            · exact Or.inr ⟨a, b, htx⟩

/-- C23, as the code has it. The ten handlers whose push is commented out all do the same:
they change no session, no router, not the session list, and they call `addTaskToQueue` for
every session of the session list, so the ready queue gains, at its back and once each, the
sessions of the list that were not pending; it stays as it was exactly when there is none. -/
theorem Scheduler.placeholder_contract (s : Scheduler) (message : MessagePtr) :
    ((∀ (P : Type) (x : P), s.handleInlineQuery x = s.handleEditedMessage message) ∧
     (∀ (P : Type) (x : P), s.handleChosenInlineResult x = s.handleEditedMessage message) ∧
     (∀ (P : Type) (x : P), s.handleShippingQuery x = s.handleEditedMessage message) ∧
     (∀ (P : Type) (x : P), s.handlePreCheckoutQuery x = s.handleEditedMessage message) ∧
     (∀ (P : Type) (x : P), s.handlePoll x = s.handleEditedMessage message) ∧
     (∀ (P : Type) (x : P), s.handlePollAnswer x = s.handleEditedMessage message) ∧
     (∀ (P : Type) (x : P), s.handleMyChatMember x = s.handleEditedMessage message) ∧
     (∀ (P : Type) (x : P), s.handleChatMember x = s.handleEditedMessage message) ∧
     (∀ (P : Type) (x : P), s.handleChatJoinRequest x = s.handleEditedMessage message)) ∧
    (s.handleEditedMessage message).session = s.session ∧
    (s.handleEditedMessage message).m_sessions = s.m_sessions ∧
    (s.handleEditedMessage message).m_message_router = s.m_message_router ∧
    (s.handleEditedMessage message).m_callback_router = s.m_callback_router ∧
    (s.handleEditedMessage message).m_timer_router = s.m_timer_router ∧
    (∃ added, (s.handleEditedMessage message).m_tasks_queue = s.m_tasks_queue ++ added ∧
      added.Nodup ∧ ∀ t, t ∈ added ↔ (t ∈ s.m_sessions ∧ t ∉ s.m_tasks_queue)) ∧
    ((s.handleEditedMessage message).m_tasks_queue = s.m_tasks_queue ↔
      ∀ t, t ∈ s.m_sessions → t ∈ s.m_tasks_queue) := by
  have hw := Scheduler.wake_eq s s.m_sessions
  have ha := Scheduler.wake_added s.m_sessions s
  refine ⟨⟨fun _ _ => rfl, fun _ _ => rfl, fun _ _ => rfl, fun _ _ => rfl, fun _ _ => rfl,
    fun _ _ => rfl, fun _ _ => rfl, fun _ _ => rfl, fun _ _ => rfl⟩, ?_, ?_, ?_, ?_, ?_, ha, ?_⟩
  · show (s.wake s.m_sessions).session = _
    rw [hw]
  · show (s.wake s.m_sessions).m_sessions = _
    rw [hw]
  · show (s.wake s.m_sessions).m_message_router = _
    rw [hw]
  · show (s.wake s.m_sessions).m_callback_router = _
    rw [hw]
  · show (s.wake s.m_sessions).m_timer_router = _
    rw [hw]
  · obtain ⟨added, h1, _, h3⟩ := ha
    show (s.wake s.m_sessions).m_tasks_queue = _ ↔ _
    rw [h1]
    constructor
    · intro h t ht
      by_contra hn
      have : t ∈ added := (h3 t).mpr ⟨ht, hn⟩
      have he : added = [] := by simpa using h
      rw [he] at this
      cases this
    · intro h
      have he : added = [] := by
        apply List.eq_nil_iff_forall_not_mem.mpr
        intro t ht
        exact ((h3 t).mp ht).2 (h t ((h3 t).mp ht).1)
      rw [he]
      simp

/-- C23, on a run: after `pushCoro` of the message test's coroutine and one worker round the
session waits and the ready queue is empty; the handler's additions are then just that
session. -/
theorem Scheduler.placeholder_contract_witness :
    ∃ s : Scheduler,
      Scheduler.new.calls
        [SchedulerCall.pushCoro (Coro (MessageAwaitable { m_enabled := true })),
         SchedulerCall.thread 3] = some s ∧
      (s.handleEditedMessage none).m_sessions = s.m_sessions ∧
      ((s.handleEditedMessage none).m_tasks_queue = s.m_tasks_queue ↔
        ∀ t, t ∈ s.m_sessions → t ∈ s.m_tasks_queue) := by
  have hs : ∃ s : Scheduler, Scheduler.new.calls
      [SchedulerCall.pushCoro (Coro (MessageAwaitable { m_enabled := true })),
       SchedulerCall.thread 3] = some s := ⟨_, rfl⟩
  obtain ⟨s, h⟩ := hs
  have hc := Scheduler.placeholder_contract s none
  exact ⟨s, h, hc.2.2.1, hc.2.2.2.2.2.2.2⟩

/-- C23 fails as stated: in the state reached by `pushCoro` of the message test's coroutine
and one worker round, the ready queue is empty, and `handleEditedMessage` puts the waiting
session back into it. -/
theorem Scheduler.placeholder_counterexample :
    ∃ s : Scheduler,
      Scheduler.new.calls
        [SchedulerCall.pushCoro (Coro (MessageAwaitable { m_enabled := true })),
         SchedulerCall.thread 3] = some s ∧
      s.m_tasks_queue = [] ∧
      (s.handleEditedMessage none).m_tasks_queue = [0] ∧
      (s.handleInlineQuery ()).m_tasks_queue = [0] :=
  ⟨_, rfl, rfl, rfl, rfl⟩

/-! ### The one-argument `pause`, and `TimerAwaitable` on a passed deadline -/

/-- C25, on the code: the one-argument `pause` assigns `m_condition` and `m_state` only, so an
abort condition stored by an earlier two-argument `pause` stays. A promise (conditions reading
a clock) pauses with an abort condition "at or after 10", is refreshed at 0 to `kReady` and
resumed, then pauses with the one-argument overload on a condition that never holds: the
refresh at 10 moves it to `kDone`. -/
theorem promise_type.pause_keeps_abort :
    (∀ (ε : Type) (p : promise_type ε) (c : Option (ε → Bool)),
      (p.pause c).m_abort_condition = p.m_abort_condition) ∧
    (∃ p1 p2 : promise_type Nat,
      (({} : promise_type Nat).initial_suspend.pause2 (some (fun _ => true))
          (some (fun t => decide (10 ≤ t)))).updateState 0 = Except.ok p1 ∧
      p1.m_state = State.kReady ∧
      (p1.pause (some (fun _ => false))).m_state = State.kWait ∧
      (p1.pause (some (fun _ => false))).updateState 10 = Except.ok p2 ∧
      p2.m_state = State.kDone) :=
  ⟨fun _ _ _ => rfl, _, _, rfl, rfl, rfl, rfl, rfl⟩

/-- The path of `TimerAwaitable` the code gets right: with the deadline still ahead the
coroutine suspends, a timer event pushed when the clock has reached the deadline is admitted
and makes it `kReady`, and the resume leaves it `kDone` with the timer filter disabled. -/
theorem TimerAwaitable.suspended_path :
    ∃ s1 s3 : Session,
      (Session.create (Coro (waitFor 100 50 100))).tryResume = Outcome.returned true s1 ∧
      (∃ after, s1.getStatus = Except.ok (State.kWait, after)) ∧
      ({ s1 with timer_queue := s1.timer_queue.push (TimerFilter.check 150)
                                  { time_point := 150 } } : Session).tryResume = Outcome.returned true s3 ∧
      (∃ after, s3.getStatus = Except.ok (State.kDone, after)) ∧
      s3.timer_queue.getFilter.m_enabled = false ∧
      s3.timer_queue.empty = true :=
  ⟨_, _, rfl, ⟨_, rfl⟩, rfl, ⟨_, rfl⟩, rfl, rfl⟩

/-- C26, on the code: `await_resume` of `TimerAwaitable` reaches the session through
`m_handle`, which only `await_suspend` sets. With the deadline passed (`waitFor` of a zero or
a negative duration, `waitUntil` of a past instant) `await_ready` is true, `await_suspend` is
skipped, and `await_resume` runs on the unset handle: the resume has no defined continuation,
the coroutine does not go on to its next statement. -/
theorem TimerAwaitable.ready_path_unset_handle :
    (∀ (now deadline : Int) (c : Context),
      (TimerAwaitable now deadline).await_resume false c = none) ∧
    (∀ c : Context, (waitFor 100 0 100).await_ready c = true) ∧
    (∀ c : Context, (waitFor 100 (-5) 100).await_ready c = true) ∧
    (∀ c : Context, (waitUntil 50 100).await_ready c = true) ∧
    (Session.create (Coro (waitFor 100 0 100))).tryResume = Outcome.aborted ∧
    (Session.create (Coro (waitFor 100 (-5) 100))).tryResume = Outcome.aborted ∧
    (Session.create (Coro (waitUntil 50 100))).tryResume = Outcome.aborted :=
  ⟨fun _ _ _ => rfl, fun _ => rfl, fun _ => rfl, fun _ => rfl, rfl, rfl, rfl⟩

/-! ### `makeAsync` under every schedule -/

theorem ResultPhase.step_state {A R : Type} (f : A → R) (args : A) (result : R)
    (c : ResultPhase) (turn : Turn) (h : c.valid = true) :
    (ResultPhase.state f args result c).step turn = ResultPhase.state f args result (c.next turn)
      ∧ (c.next turn).valid = true := by
  cases c with
  | created pc =>
    cases pc <;> cases turn <;> first | exact absurd h (by decide) | exact ⟨rfl, rfl⟩
  | running th pc =>
    cases th <;> cases pc <;> cases turn <;>
      first | exact absurd h (by decide) | exact ⟨rfl, rfl⟩
  | woken pc =>
    cases pc <;> cases turn <;> first | exact absurd h (by decide) | exact ⟨rfl, rfl⟩
  | over pc =>
    cases pc <;> cases turn <;> first | exact absurd h (by decide) | exact ⟨rfl, rfl⟩

theorem NoResultPhase.void_step_state {A : Type} (args : A)
    (c : NoResultPhase) (turn : Turn) (h : c.valid = true) :
    (NoResultPhase.state args c).step turn = NoResultPhase.state args (c.next turn)
      ∧ (c.next turn).valid = true := by
  cases c with
  | created pc =>
    cases pc <;> cases turn <;> first | exact absurd h (by decide) | exact ⟨rfl, rfl⟩
  | running th pc =>
    cases th <;> cases pc <;> cases turn <;>
      first | exact absurd h (by decide) | exact ⟨rfl, rfl⟩
  | woken th pc =>
    cases th <;> cases pc <;> cases turn <;>
      first | exact absurd h (by decide) | exact ⟨rfl, rfl⟩
  | over pc =>
    cases pc <;> cases turn <;> first | exact absurd h (by decide) | exact ⟨rfl, rfl⟩

theorem ResultPhase.run_state {A R : Type} (f : A → R) (args : A) (result : R)
    (schedule : List Turn) (c : ResultPhase) (h : c.valid = true) :
    (ResultPhase.state f args result c).run schedule
        = ResultPhase.state f args result (schedule.foldl ResultPhase.next c)
      ∧ (schedule.foldl ResultPhase.next c).valid = true := by
  induction schedule generalizing c with
  | nil => exact ⟨rfl, h⟩
  | cons turn rest ih =>
    have hs := ResultPhase.step_state f args result c turn h
    have hr := ih (c.next turn) hs.2
    refine ⟨?_, hr.2⟩
    show ((ResultPhase.state f args result c).step turn).run rest = _
    rw [hs.1]
    exact hr.1

theorem NoResultPhase.void_run_state {A : Type} (args : A)
    (schedule : List Turn) (c : NoResultPhase) (h : c.valid = true) :
    (NoResultPhase.state args c).run schedule
        = NoResultPhase.state args (schedule.foldl NoResultPhase.next c)
      ∧ (schedule.foldl NoResultPhase.next c).valid = true := by
  induction schedule generalizing c with
  | nil => exact ⟨rfl, h⟩
  | cons turn rest ih =>
    have hs := NoResultPhase.void_step_state args c turn h
    have hr := ih (c.next turn) hs.2
    refine ⟨?_, hr.2⟩
    show ((NoResultPhase.state args c).step turn).run rest = _
    rw [hs.1]
    exact hr.1

theorem Turn.fair_add (a b : Nat) : Turn.fair (a + b) = Turn.fair a ++ Turn.fair b := by
  induction a with
  | zero => simp [Turn.fair]
  | succ a ih =>
    have : a + 1 + b = (a + b) + 1 := by omega
    rw [this]
    simp [Turn.fair, ih]

theorem ResultPhase.stays_finished (schedule : List Turn) :
    schedule.foldl ResultPhase.next (ResultPhase.over TestPc.finished)
      = ResultPhase.over TestPc.finished := by
  induction schedule with
  | nil => rfl
  | cons turn rest ih =>
    cases turn <;> exact ih

theorem NoResultPhase.void_stays_finished (schedule : List Turn) :
    schedule.foldl NoResultPhase.next (NoResultPhase.over TestPc.finished)
      = NoResultPhase.over TestPc.finished := by
  induction schedule with
  | nil => rfl
  | cons turn rest ih =>
    cases turn <;> exact ih

theorem ResultPhase.fair_finishes (c : ResultPhase) (h : c.valid = true) :
    (Turn.fair 13).foldl ResultPhase.next c = ResultPhase.over TestPc.finished := by
  cases c with
  | created pc => cases pc <;> first | exact absurd h (by decide) | rfl
  | running th pc => cases th <;> cases pc <;> first | exact absurd h (by decide) | rfl
  | woken pc => cases pc <;> first | exact absurd h (by decide) | rfl
  | over pc => cases pc <;> first | exact absurd h (by decide) | rfl

theorem NoResultPhase.void_fair_finishes (c : NoResultPhase) (h : c.valid = true) :
    (Turn.fair 13).foldl NoResultPhase.next c = NoResultPhase.over TestPc.finished := by
  cases c with
  | created pc => cases pc <;> first | exact absurd h (by decide) | rfl
  | running th pc => cases th <;> cases pc <;> first | exact absurd h (by decide) | rfl
  | woken th pc => cases th <;> cases pc <;> first | exact absurd h (by decide) | rfl
  | over pc => cases pc <;> first | exact absurd h (by decide) | rfl

theorem ResultPhase.state_facts {A R : Type} (f : A → R) (args : A) (result : R)
    (c : ResultPhase) (h : c.valid = true) :
    ((ResultPhase.state f args result c).trace <+:
      [AsyncEvent.invoked args, AsyncEvent.stored (f args), AsyncEvent.execute,
       AsyncEvent.resumed (f args)]) ∧
    (ResultPhase.state f args result c).pc ≠ TestPc.failed ∧
    ((ResultPhase.state f args result c).pc = TestPc.finished →
      c = ResultPhase.over TestPc.finished) := by
  cases c with
  | created pc =>
    cases pc <;> first | exact absurd h (by decide) |
      exact ⟨⟨_, rfl⟩, (by intro h1; cases h1), (by intro h1; cases h1)⟩
  | running th pc =>
    cases th <;> cases pc <;> first | exact absurd h (by decide) |
      exact ⟨⟨_, rfl⟩, (by intro h1; cases h1), (by intro h1; cases h1)⟩
  | woken pc =>
    cases pc <;> first | exact absurd h (by decide) |
      exact ⟨⟨_, rfl⟩, (by intro h1; cases h1), (by intro h1; cases h1)⟩
  | over pc =>
    cases pc <;> first | exact absurd h (by decide) |
      exact ⟨⟨[], rfl⟩, (by intro h1; cases h1), fun _ => rfl⟩ |
      exact ⟨⟨[], rfl⟩, (by intro h1; cases h1), (by intro h1; cases h1)⟩

theorem NoResultPhase.void_state_facts {A : Type} (args : A)
    (c : NoResultPhase) (h : c.valid = true) :
    ((NoResultPhase.state args c).trace <+:
      [AsyncEvent.invoked args, AsyncEvent.stored (), AsyncEvent.execute,
       AsyncEvent.resumed ()]) ∧
    (NoResultPhase.state args c).pc ≠ TestPc.failed ∧
    ((NoResultPhase.state args c).pc = TestPc.finished →
      c = NoResultPhase.over TestPc.finished) := by
  cases c with
  | created pc =>
    cases pc <;> first | exact absurd h (by decide) |
      exact ⟨⟨_, rfl⟩, (by intro h1; cases h1), (by intro h1; cases h1)⟩
  | running th pc =>
    cases th <;> cases pc <;> first | exact absurd h (by decide) |
      exact ⟨⟨_, rfl⟩, (by intro h1; cases h1), (by intro h1; cases h1)⟩
  | woken th pc =>
    cases th <;> cases pc <;> first | exact absurd h (by decide) |
      exact ⟨⟨_, rfl⟩, (by intro h1; cases h1), (by intro h1; cases h1)⟩
  | over pc =>
    cases pc <;> first | exact absurd h (by decide) |
      exact ⟨⟨[], rfl⟩, (by intro h1; cases h1), fun _ => rfl⟩ |
      exact ⟨⟨[], rfl⟩, (by intro h1; cases h1), (by intro h1; cases h1)⟩

/-- C24. The two test cases of `makeasync.cpp`, under every schedule of the test's thread and
the thread made by `await_suspend`. For a callable `f` that returns a value: what happens is
always an initial part of "`f` is invoked on the arguments, the result is stored,
`Session::execute` is called, `await_resume` hands `f(args)` to the coroutine", so `f` is
invoked at most once, the upcall follows the store, and the coroutine goes past the await only
after both; the test's thread never stops on an exception; when it leaves the loop all four
have happened, `result` is `f(args)`, the coroutine is `kDone`, and nothing happens after
that; and the loop is left after any schedule followed by thirteen or more rounds in which
each thread has its turn. The same for a callable that returns nothing, with the setting of
`m_ready` in place of the store. -/
theorem makeAsync.await_async_contract {A R : Type} (f : A → R) (args : A) (result : R)
    (schedule more : List Turn) (n : Nat) (hn : 13 ≤ n) :
    (((CoroResultTest.start f args result).run schedule).trace <+:
      [AsyncEvent.invoked args, AsyncEvent.stored (f args), AsyncEvent.execute,
       AsyncEvent.resumed (f args)]) ∧
    ((CoroResultTest.start f args result).run schedule).pc ≠ TestPc.failed ∧
    (((CoroResultTest.start f args result).run schedule).pc = TestPc.finished →
      ((CoroResultTest.start f args result).run schedule).trace =
        [AsyncEvent.invoked args, AsyncEvent.stored (f args), AsyncEvent.execute,
         AsyncEvent.resumed (f args)] ∧
      ((CoroResultTest.start f args result).run schedule).result = f args ∧
      ((CoroResultTest.start f args result).run schedule).promise.m_state = State.kDone ∧
      (CoroResultTest.start f args result).run (schedule ++ more) =
        (CoroResultTest.start f args result).run schedule) ∧
    ((CoroResultTest.start f args result).run (schedule ++ Turn.fair n)).pc = TestPc.finished ∧
    (((CoroNoResultTest.start args).run schedule).trace <+:
      [AsyncEvent.invoked args, AsyncEvent.stored (), AsyncEvent.execute,
       AsyncEvent.resumed ()]) ∧
    ((CoroNoResultTest.start args).run schedule).pc ≠ TestPc.failed ∧
    (((CoroNoResultTest.start args).run schedule).pc = TestPc.finished →
      ((CoroNoResultTest.start args).run schedule).trace =
        [AsyncEvent.invoked args, AsyncEvent.stored (), AsyncEvent.execute,
         AsyncEvent.resumed ()] ∧
      ((CoroNoResultTest.start args).run schedule).promise.m_state = State.kDone ∧
      (CoroNoResultTest.start args).run (schedule ++ more) =
        (CoroNoResultTest.start args).run schedule) ∧
    ((CoroNoResultTest.start args).run (schedule ++ Turn.fair n)).pc = TestPc.finished := by
  have hn1 : Turn.fair n = Turn.fair 13 ++ Turn.fair (n - 13) := by
    rw [← Turn.fair_add]
    congr 1
    omega
  have hv : (ResultPhase.created TestPc.check).valid = true := rfl
  have hs : CoroResultTest.start f args result
      = ResultPhase.state f args result (ResultPhase.created TestPc.check) := rfl
  have hr := fun s => ResultPhase.run_state f args result s _ hv
  have hf := ResultPhase.state_facts f args result _ (hr schedule).2
  have hw : (NoResultPhase.created TestPc.check).valid = true := rfl
  have hs2 : CoroNoResultTest.start args
      = NoResultPhase.state args (NoResultPhase.created TestPc.check) := rfl
  have hr2 := fun s => NoResultPhase.void_run_state args s _ hw
  have hf2 := NoResultPhase.void_state_facts args _ (hr2 schedule).2
  rw [hs, hs2, (hr schedule).1, (hr2 schedule).1, (hr (schedule ++ more)).1,
    (hr2 (schedule ++ more)).1, (hr (schedule ++ Turn.fair n)).1,
    (hr2 (schedule ++ Turn.fair n)).1]
  refine ⟨hf.1, hf.2.1, ?_, ?_, hf2.1, hf2.2.1, ?_, ?_⟩
  · intro hp
    have hc := hf.2.2 hp
    rw [List.foldl_append, hc, ResultPhase.stays_finished]
    exact ⟨rfl, rfl, rfl, rfl⟩
  · rw [hn1, List.foldl_append, List.foldl_append,
      ResultPhase.fair_finishes _ (hr schedule).2, ResultPhase.stays_finished]
    rfl
  · intro hp
    have hc := hf2.2.2 hp
    rw [List.foldl_append, hc, NoResultPhase.void_stays_finished]
    exact ⟨rfl, rfl, rfl⟩
  · rw [hn1, List.foldl_append, List.foldl_append,
      NoResultPhase.void_fair_finishes _ (hr2 schedule).2, NoResultPhase.void_stays_finished]
    rfl

/-- C24, on the test's own data (`f(x) = x`, argument 5, `result` initially 0): under the
schedule that lets the test's thread take five steps before the other thread starts, and then
fifteen rounds, the loop is left with `result == 5` and the four events in order. -/
theorem makeAsync.await_async_contract_witness :
    13 ≤ 15 ∧
    ((CoroResultTest.start (fun x : Int => x) 5 0).run
        ([Turn.main, Turn.main, Turn.main, Turn.main, Turn.main] ++ Turn.fair 15)).pc
      = TestPc.finished ∧
    ((CoroResultTest.start (fun x : Int => x) 5 0).run
        ([Turn.main, Turn.main, Turn.main, Turn.main, Turn.main] ++ Turn.fair 15)).result = 5 ∧
    ((CoroResultTest.start (fun x : Int => x) 5 0).run
        ([Turn.main, Turn.main, Turn.main, Turn.main, Turn.main] ++ Turn.fair 15)).trace =
      [AsyncEvent.invoked 5, AsyncEvent.stored 5, AsyncEvent.execute, AsyncEvent.resumed 5] := by
  have h := makeAsync.await_async_contract (fun x : Int => x) 5 0
    [Turn.main, Turn.main, Turn.main, Turn.main, Turn.main] [] 15 (by decide)
  have h2 := makeAsync.await_async_contract (fun x : Int => x) 5 0
    ([Turn.main, Turn.main, Turn.main, Turn.main, Turn.main] ++ Turn.fair 15) [] 15 (by decide)
  exact ⟨by decide, h.2.2.2.1, (h2.2.2.1 h.2.2.2.1).2.1, (h2.2.2.1 h.2.2.2.1).1⟩

end ATgBot
